import Mathlib

/-!
Verification development for the Health-Benchmark extraction-to-validation
pipeline (`med_benchmark`): a shallow embedding of the Python modules
`utils.py`, `extractor.py`, `validation.py` and the retry loop of
`pipeline.py`, together with theorems settling the specification claims
about EID assignment, canonical hashing, truncation, linkage policies,
ordering, determinism, schema validation, evidence enforcement and the
repair loop.

Modelling conventions:
* Python values flowing through the pipeline are modelled by `JVal`
  (JSON scalars plus `time` for Python `datetime` objects returned by the
  row store for TIMESTAMP columns).  Floats and `date`/`timedelta` values
  are not modelled; rows are universally quantified over the modelled
  value space.
* Python `dict` rows are association lists (`Row`); dict assignment is
  `setKey` (replace-in-place at the first matching key, append if absent),
  matching Python's insertion-order semantics for rows with unique keys.
* `hashlib.sha256` is an external primitive; the extractor is parameterized
  by an arbitrary hex function `hashHex : String → String`, so the hashing
  theorems hold for SHA-256 in particular.
-/

set_option maxHeartbeats 1000000

/-- Python `datetime` (second resolution, as produced by the row store and
by `datetime.strptime` in `utils.parse_dt`). -/
structure DT where
  y : Nat
  mo : Nat
  d : Nat
  h : Nat
  mi : Nat
  s : Nat
deriving DecidableEq, Repr

/-- Python `datetime` comparison: lexicographic on the date/time fields. -/
def dtLe (a b : DT) : Bool :=
  if a.y ≠ b.y then a.y < b.y
  else if a.mo ≠ b.mo then a.mo < b.mo
  else if a.d ≠ b.d then a.d < b.d
  else if a.h ≠ b.h then a.h < b.h
  else if a.mi ≠ b.mi then a.mi < b.mi
  else a.s ≤ b.s

/-- Leap-year test used by date validation, as in the Gregorian calendar
(Python `datetime` range checking). -/
def isLeap (y : Nat) : Bool :=
  (y % 4 = 0 ∧ y % 100 ≠ 0) ∨ y % 400 = 0

/-- Number of days in a month, used to validate day-of-month as
`datetime.strptime` does. -/
def daysInMonth (y mo : Nat) : Nat :=
  if mo = 2 then (if isLeap y then 29 else 28)
  else if mo = 4 ∨ mo = 6 ∨ mo = 9 ∨ mo = 11 then 30
  else 31

/-- Days since 1970-01-01 for a civil date (Hinnant's algorithm); used to
give `datetime` subtraction in `utils.minutes_since` exact meaning. -/
def daysFromCivil (y mo d : Nat) : Int :=
  let yy : Int := if mo ≤ 2 then (y : Int) - 1 else (y : Int)
  let era : Int := (if 0 ≤ yy then yy else yy - 399) / 400
  let yoe : Int := yy - era * 400
  let mp : Int := ((mo : Int) + 9) % 12
  let doy : Int := (153 * mp + 2) / 5 + (d : Int) - 1
  let doe : Int := yoe * 365 + yoe / 4 - yoe / 100 + doy
  era * 146097 + doe - 719468

/-- Absolute second count of a `datetime`, for computing time deltas. -/
def dtSecs (t : DT) : Int :=
  daysFromCivil t.y t.mo t.d * 86400 + (t.h : Int) * 3600 + (t.mi : Int) * 60 + (t.s : Int)

/-- Left-pad a natural number to two decimal digits (`%02d`). -/
def pad2 (n : Nat) : String :=
  if n < 10 then "0" ++ Nat.repr n else Nat.repr n

/-- Left-pad a natural number to four decimal digits (`%04d`, for `%Y`). -/
def pad4 (n : Nat) : String :=
  if n < 10 then "000" ++ Nat.repr n
  else if n < 100 then "00" ++ Nat.repr n
  else if n < 1000 then "0" ++ Nat.repr n
  else Nat.repr n

/-- `strftime("%Y-%m-%dT%H:%M:%S")`, the ISO form produced by
`utils.dt_to_iso`. -/
def fmtIso (t : DT) : String :=
  pad4 t.y ++ "-" ++ pad2 t.mo ++ "-" ++ pad2 t.d ++ "T" ++
    pad2 t.h ++ ":" ++ pad2 t.mi ++ ":" ++ pad2 t.s

/-- `str(datetime)` (`"%Y-%m-%d %H:%M:%S"`), used by Python `str()`. -/
def fmtSpace (t : DT) : String :=
  pad4 t.y ++ "-" ++ pad2 t.mo ++ "-" ++ pad2 t.d ++ " " ++
    pad2 t.h ++ ":" ++ pad2 t.mi ++ ":" ++ pad2 t.s

/-- Value of a decimal digit character. -/
def digVal (c : Char) : Nat := c.toNat - 48

/-- Consume exactly four decimal digits (`strptime` `%Y`). -/
def parse4 (cs : List Char) : Option (Nat × List Char) :=
  match cs with
  | a :: b :: c :: d :: rest =>
    if a.isDigit ∧ b.isDigit ∧ c.isDigit ∧ d.isDigit then
      some (((digVal a * 10 + digVal b) * 10 + digVal c) * 10 + digVal d, rest)
    else none
  | _ => none

/-- Consume one or two decimal digits whose value satisfies `ok`
(`strptime` `%m`/`%d`/`%H`/`%M`/`%S` field patterns; two digits are
preferred when they form a valid value). -/
def parse1or2 (ok : Nat → Bool) (cs : List Char) : Option (Nat × List Char) :=
  match cs with
  | a :: b :: rest =>
    if a.isDigit ∧ b.isDigit ∧ ok (digVal a * 10 + digVal b) then
      some (digVal a * 10 + digVal b, rest)
    else if a.isDigit ∧ ok (digVal a) then some (digVal a, b :: rest)
    else none
  | [a] => if a.isDigit ∧ ok (digVal a) then some (digVal a, []) else none
  | [] => none

/-- Consume a literal character. -/
def parseLit (c : Char) (cs : List Char) : Option (List Char) :=
  match cs with
  | x :: rest => if x = c then some rest else none
  | [] => none

/-- Parse `%Y-%m-%d` with `datetime` range validation (month 1–12,
day 1–daysInMonth, year at least 1). -/
def parseYMD (cs : List Char) : Option ((Nat × Nat × Nat) × List Char) := do
  let (y, cs) ← parse4 cs
  if y = 0 then none else
  let cs ← parseLit '-' cs
  let (mo, cs) ← parse1or2 (fun m => 1 ≤ m ∧ m ≤ 12) cs
  let cs ← parseLit '-' cs
  let (d, cs) ← parse1or2 (fun d => 1 ≤ d ∧ d ≤ 31) cs
  if d ≤ daysInMonth y mo then some ((y, mo, d), cs) else none

/-- Parse `%H:%M:%S` with `datetime` range validation. -/
def parseHMS (cs : List Char) : Option ((Nat × Nat × Nat) × List Char) := do
  let (h, cs) ← parse1or2 (fun h => h ≤ 23) cs
  let cs ← parseLit ':' cs
  let (mi, cs) ← parse1or2 (fun m => m ≤ 59) cs
  let cs ← parseLit ':' cs
  let (s, cs) ← parse1or2 (fun s => s ≤ 59) cs
  some ((h, mi, s), cs)

/-- Parse one `strptime` format: full date plus an optional time part
introduced by `sep`; the whole string must be consumed. -/
def parseFmt (sep : Option Char) (cs : List Char) : Option DT := do
  let ((y, mo, d), cs) ← parseYMD cs
  match sep with
  | none => if cs = [] then some ⟨y, mo, d, 0, 0, 0⟩ else none
  | some c => do
    let cs ← parseLit c cs
    let ((h, mi, s), cs) ← parseHMS cs
    if cs = [] then some ⟨y, mo, d, h, mi, s⟩ else none

/-- Python values handled by the pipeline: JSON scalars, lists and dicts,
plus `time` for `datetime` objects coming out of the row store. -/
inductive JVal where
  | null
  | bool (b : Bool)
  | int (n : Int)
  | str (s : String)
  | time (t : DT)
  | arr (xs : List JVal)
  | obj (kvs : List (String × JVal))

mutual
/-- Structural equality test on values (Python `==` on JSON-like data). -/
def jbeq : JVal → JVal → Bool
  | .null, .null => true
  | .bool a, .bool b => a == b
  | .int a, .int b => a == b
  | .str a, .str b => a == b
  | .time a, .time b => a = b
  | .arr xs, .arr ys => jbeqArr xs ys
  | .obj xs, .obj ys => jbeqKvs xs ys
  | _, _ => false

/-- Elementwise equality of value lists. -/
def jbeqArr : List JVal → List JVal → Bool
  | [], [] => true
  | x :: xs, y :: ys => jbeq x y && jbeqArr xs ys
  | _, _ => false

/-- Elementwise equality of key-value lists. -/
def jbeqKvs : List (String × JVal) → List (String × JVal) → Bool
  | [], [] => true
  | (k₁, v₁) :: xs, (k₂, v₂) :: ys => k₁ == k₂ && jbeq v₁ v₂ && jbeqKvs xs ys
  | _, _ => false
end

mutual
theorem jbeq_iff : ∀ (a b : JVal), jbeq a b = true ↔ a = b
  | a, b => by
    cases a <;> cases b <;> simp [jbeq]
    case arr.arr xs ys => exact jbeqArr_iff xs ys
    case obj.obj xs ys => exact jbeqKvs_iff xs ys

theorem jbeqArr_iff : ∀ (xs ys : List JVal), jbeqArr xs ys = true ↔ xs = ys
  | [], [] => by simp [jbeqArr]
  | [], _ :: _ => by simp [jbeqArr]
  | _ :: _, [] => by simp [jbeqArr]
  | x :: xs, y :: ys => by
    simp [jbeqArr, jbeq_iff x y, jbeqArr_iff xs ys]

theorem jbeqKvs_iff : ∀ (xs ys : List (String × JVal)), jbeqKvs xs ys = true ↔ xs = ys
  | [], [] => by simp [jbeqKvs]
  | [], _ :: _ => by simp [jbeqKvs]
  | _ :: _, [] => by simp [jbeqKvs]
  | (k₁, v₁) :: xs, (k₂, v₂) :: ys => by
    simp [jbeqKvs, jbeq_iff v₁ v₂, jbeqKvs_iff xs ys, and_assoc]
end

instance : DecidableEq JVal := fun a b => decidable_of_iff _ (jbeq_iff a b)

instance : BEq JVal := ⟨fun a b => jbeq a b⟩

instance : LawfulBEq JVal where
  eq_of_beq h := (jbeq_iff _ _).mp h
  rfl := (jbeq_iff _ _).mpr rfl

/-- A row store record: an ordered field mapping, like a Python dict row. -/
abbrev Row := List (String × JVal)

/-- Python `row.get(key)`: first binding, defaulting to `None`. -/
def rowGet (r : Row) (k : String) : JVal :=
  (r.lookup k).getD .null

/-- Python dict assignment `d[k] = v`: replace in place at the first
occurrence of `k`, else append at the end. -/
def setKey (r : Row) (k : String) (v : JVal) : Row :=
  match r with
  | [] => [(k, v)]
  | (k₁, v₁) :: rest =>
    if k₁ = k then (k, v) :: rest else (k₁, v₁) :: setKey rest k v

/-- Scalar (non-container) values; row-store rows are scalar-valued. -/
def JVal.isAtom : JVal → Bool
  | .arr _ => false
  | .obj _ => false
  | _ => true

/-- String test (`isinstance(v, str)` inside `flatten_eids`). -/
def JVal.isStr : JVal → Bool
  | .str _ => true
  | _ => false

/-- The string payload of a string value. -/
def JVal.strVal : JVal → String
  | .str s => s
  | _ => ""

/-- Python `str.strip()` on the character list of a string. -/
def pyStrip (cs : List Char) : List Char :=
  ((cs.dropWhile Char.isWhitespace).reverse.dropWhile Char.isWhitespace).reverse

/-- `utils.parse_dt`: `None`/empty → `None`; `datetime` passed through;
strings stripped then parsed by the three formats; other scalars →
`None`. -/
def parseDt : JVal → Option DT
  | .null => none
  | .time t => some t
  | .str s =>
    let cs := pyStrip s.data
    if cs = [] then none else strParseDtChars cs
  | _ => none
where
  /-- `strParseDt` on a pre-stripped character list. -/
  strParseDtChars (cs : List Char) : Option DT :=
    match parseFmt (some ' ') cs with
    | some t => some t
    | none =>
      match parseFmt none cs with
      | some t => some t
      | none => parseFmt (some 'T') cs

/-- `utils.dt_to_iso` (without the `date`-typed branch, since `date`
values are not modelled): `None`/empty → `None`, strings re-formatted when
parseable, `datetime` formatted, other scalars stringified. -/
def dtToIso : JVal → Option String
  | .null => none
  | .str s =>
    if s = "" then none
    else
      match parseDt (.str s) with
      | none => some s
      | some t => some (fmtIso t)
  | .time t => some (fmtIso t)
  | .bool b => some (if b then "True" else "False")
  | .int n => some (Int.repr n)
  | .arr _ => some ""
  | .obj _ => some ""

/-- The `Option String` result of `dt_to_iso` as a packet field value. -/
def dtToIsoJ (v : JVal) : JVal :=
  match dtToIso v with
  | none => .null
  | some s => .str s

/-- Python `str(value)` for the modelled scalar values (container cases
are unreachable at the call sites). -/
def pyStr : JVal → String
  | .null => "None"
  | .bool b => if b then "True" else "False"
  | .int n => Int.repr n
  | .str s => s
  | .time t => fmtSpace t
  | .arr _ => "<list>"
  | .obj _ => "<dict>"

/-- `utils.normalize_scalar` restricted to the modelled values: `datetime`
becomes its ISO string, everything else passes through. -/
def normVal : JVal → JVal
  | .time t => .str (fmtIso t)
  | v => v

/-- `utils.normalize_row`. -/
def normalizeRow (r : Row) : Row :=
  r.map (fun kv => (kv.1, normVal kv.2))

/-- `utils.minutes_since`: floor of the second difference divided by 60,
`None` when the event value does not parse. -/
def minutesSince (start : DT) (v : JVal) : Option Int :=
  (parseDt v).map (fun t => (dtSecs t - dtSecs start).fdiv 60)

/-- `utils.clip_rows`: `None` or negative cap leaves rows untouched;
otherwise keep the first `cap` rows and flag whether truncation occurred. -/
def clipRows (rows : List Row) (cap : Option Int) : List Row × Bool :=
  match cap with
  | none => (rows, false)
  | some c =>
    if c < 0 then (rows, false)
    else if (rows.length : Int) ≤ c then (rows, false)
    else (rows.take c.toNat, true)

/-- `PacketExtractor._dedupe_by_key`, generalized over the already-seen
key set (the Python function starts from an empty set). -/
def dedupeFrom (k : String) (seen : List JVal) : List Row → List Row
  | [] => []
  | r :: rs =>
    let v := rowGet r k
    if v ∈ seen then dedupeFrom k seen rs
    else r :: dedupeFrom k (v :: seen) rs

/-- `PacketExtractor._dedupe_by_key`: keep the first row for each value of
field `k`. -/
def dedupeByKey (rows : List Row) (k : String) : List Row :=
  dedupeFrom k [] rows

mutual
/-- Deep `eid` collection (`utils.flatten_eids`), as the list of
occurrences in traversal order; the Python function returns its set. -/
def flattenEidsList : JVal → List String
  | .obj kvs => flattenKvs kvs
  | .arr xs => flattenArr xs
  | _ => []

/-- Dict part of `flatten_eids`: a string value at key `"eid"` is
collected, every other value is traversed. -/
def flattenKvs : List (String × JVal) → List String
  | [] => []
  | (k, v) :: kvs =>
    (if k = "eid" ∧ v.isStr = true then [v.strVal] else flattenEidsList v) ++ flattenKvs kvs

/-- List part of `flatten_eids`. -/
def flattenArr : List JVal → List String
  | [] => []
  | x :: xs => flattenEidsList x ++ flattenArr xs
end

/-- JSON string escaping of one character as `json.dumps` does with
`ensure_ascii=False`. -/
def jsonEscapeChar (c : Char) : String :=
  if c = '"' then "\\\""
  else if c = '\\' then "\\\\"
  else if c = '\n' then "\\n"
  else if c = '\t' then "\\t"
  else if c = '\r' then "\\r"
  else if c = (Char.ofNat 8) then "\\b"
  else if c = (Char.ofNat 12) then "\\f"
  else if c.toNat < 32 then "\\u00" ++ pad2Hex c.toNat
  else String.singleton c
where
  /-- Two lowercase hex digits. -/
  pad2Hex (n : Nat) : String :=
    let dig (d : Nat) : String :=
      if d < 10 then Nat.repr d
      else if d = 10 then "a" else if d = 11 then "b" else if d = 12 then "c"
      else if d = 13 then "d" else if d = 14 then "e" else "f"
    dig (n / 16) ++ dig (n % 16)

/-- JSON string literal serialization. -/
def quoteJson (s : String) : String :=
  "\"" ++ String.join (s.data.map jsonEscapeChar) ++ "\""

/-- Stable insertion of a key-tagged serialized entry, ascending by key
(models `sort_keys=True`). -/
def insertByKey (x : String × String) : List (String × String) → List (String × String)
  | [] => [x]
  | y :: ys => if y.1 ≤ x.1 then y :: insertByKey x ys else x :: y :: ys

/-- Sort serialized dict entries by key. -/
def sortByKey (l : List (String × String)) : List (String × String) :=
  l.foldl (fun acc x => insertByKey x acc) []

mutual
/-- `utils.canonical_json_dumps`: `json.dumps` with sorted keys, compact
separators and `ensure_ascii=False`.  (`datetime` values never reach the
serializer: rows are normalized first; the `time` case is dead code.) -/
def dumpsV : JVal → String
  | .null => "null"
  | .bool b => if b then "true" else "false"
  | .int n => Int.repr n
  | .str s => quoteJson s
  | .time t => quoteJson (fmtIso t)
  | .arr xs => "[" ++ String.intercalate "," (dumpsArr xs) ++ "]"
  | .obj kvs =>
    "\x7b" ++
      String.intercalate ","
        ((sortByKey (dumpsKvs kvs)).map (fun kv => quoteJson kv.1 ++ ":" ++ kv.2)) ++
      "\x7d"

/-- Serialize list elements in order. -/
def dumpsArr : List JVal → List String
  | [] => []
  | x :: xs => dumpsV x :: dumpsArr xs

/-- Serialize dict entries, keeping their keys for sorting. -/
def dumpsKvs : List (String × JVal) → List (String × String)
  | [] => []
  | (k, v) :: kvs => (k, dumpsV v) :: dumpsKvs kvs
end


/-! ## Extractor embedding (`extractor.py`) -/

/-- Python truthiness test, for `r.get("emar_id") or ""`. -/
def pyFalsy : JVal → Bool
  | .null => true
  | .bool b => !b
  | .int n => n = 0
  | .str s => s = ""
  | .time _ => false
  | .arr xs => xs.isEmpty
  | .obj kvs => kvs.isEmpty

/-- Null-like admission/reference keys, Python `value in (None, "")`. -/
def isNullish (v : JVal) : Bool :=
  v == JVal.null || v == JVal.str ""

/-- Reference-id set of a linked record list (`{str(r.get(k)) for r in rows
if r.get(k) not in (None, "")}`). -/
def targetIds (rows : List Row) (k : String) : List String :=
  rows.filterMap (fun r =>
    if isNullish (rowGet r k) then none else some (pyStr (rowGet r k)))

/-- Linkage-outcome tallies of `_filter_emar_candidates`. -/
structure EmarCounts where
  direct_hadm : Nat
  linked_via_pharmacy_id : Nat
  linked_via_poe_id : Nat
  linked_via_time_window : Nat
  excluded_null_hadm : Nat
deriving DecidableEq, Repr

/-- Time-window fallback test: the row's `charttime` parses and lies in
`[admittime, dischtime]` inclusive (requiring a discharge time). -/
def emarWindowOk (admitD : DT) (disch : Option DT) (r : Row) : Bool :=
  match parseDt (rowGet r "charttime"), disch with
  | some t, some dd => dtLe admitD t && dtLe t dd
  | _, _ => false

/-- Per-candidate selection loop of `_filter_emar_candidates`, in the
source's precedence order: direct admission match, different non-null key
excluded, pharmacy link, order link, optional time window, else excluded. -/
def emarLoop (hadm : Int) (admitD : DT) (disch : Option DT) (fallback : Bool)
    (pharmIds poeIds : List String) : List Row → List Row × EmarCounts
  | [] => ([], ⟨0, 0, 0, 0, 0⟩)
  | r :: rs =>
    let (sel, c) := emarLoop hadm admitD disch fallback pharmIds poeIds rs
    let rh := rowGet r "hadm_id"
    if rh == JVal.int hadm then
      (r :: sel, { c with direct_hadm := c.direct_hadm + 1 })
    else if !(isNullish rh) then
      (sel, { c with excluded_null_hadm := c.excluded_null_hadm + 1 })
    else if !(isNullish (rowGet r "pharmacy_id")) &&
        pharmIds.contains (pyStr (rowGet r "pharmacy_id")) then
      (r :: sel, { c with linked_via_pharmacy_id := c.linked_via_pharmacy_id + 1 })
    else if !(isNullish (rowGet r "poe_id")) &&
        poeIds.contains (pyStr (rowGet r "poe_id")) then
      (r :: sel, { c with linked_via_poe_id := c.linked_via_poe_id + 1 })
    else if fallback && emarWindowOk admitD disch r then
      (r :: sel, { c with linked_via_time_window := c.linked_via_time_window + 1 })
    else
      (sel, { c with excluded_null_hadm := c.excluded_null_hadm + 1 })

/-- Stable insertion into an ascending list (elements ranked by `le`). -/
def stableInsert (le : α → α → Bool) (x : α) : List α → List α
  | [] => [x]
  | y :: ys => if le y x then y :: stableInsert le x ys else x :: y :: ys

/-- Stable ascending sort, the semantics of Python `list.sort(key=...)`. -/
def stableSortBy (le : α → α → Bool) (l : List α) : List α :=
  l.foldl (fun acc x => stableInsert le x acc) []

/-- Sort key of the post-selection EMAR ordering: ISO chart time (absent
times last), `emar_seq` (absent last), then stringified `emar_id`. -/
def emarSortKey (r : Row) : String × Int × String :=
  (match dtToIso (rowGet r "charttime") with
   | none => "9999-99-99T99:99:99"
   | some s => if s = "" then "9999-99-99T99:99:99" else s,
   match rowGet r "emar_seq" with
   | .int n => n
   | _ => 10 ^ 18,
   pyStr (if pyFalsy (rowGet r "emar_id") then JVal.str "" else rowGet r "emar_id"))

/-- Lexicographic comparison of EMAR sort keys (Python tuple order). -/
def emarKeyLe (a b : String × Int × String) : Bool :=
  if a.1 ≠ b.1 then decide (a.1 < b.1)
  else if a.2.1 ≠ b.2.1 then decide (a.2.1 < b.2.1)
  else decide (a.2.2 ≤ b.2.2)

/-- Row-level EMAR ordering. -/
def emarRowLe (a b : Row) : Bool :=
  emarKeyLe (emarSortKey a) (emarSortKey b)

/-- `PacketExtractor._filter_emar_candidates`: select by linkage
precedence, sort deterministically, dedupe by `emar_id`. -/
def filterEmarCandidates (cands : List Row) (hadm : Int) (admitD : DT)
    (disch : Option DT) (fallback : Bool) (poeRows pharmRows : List Row) :
    List Row × EmarCounts :=
  let pharmIds := targetIds pharmRows "pharmacy_id"
  let poeIds := targetIds poeRows "poe_id"
  (dedupeByKey (stableSortBy emarRowLe (emarLoop hadm admitD disch fallback pharmIds poeIds cands).1) "emar_id",
   (emarLoop hadm admitD disch fallback pharmIds poeIds cands).2)

/-- Six zero-padded decimal digits of `n < 10^6`. -/
def sixDigits (n : Nat) : String :=
  String.mk [Nat.digitChar (n / 100000 % 10), Nat.digitChar (n / 10000 % 10),
    Nat.digitChar (n / 1000 % 10), Nat.digitChar (n / 100 % 10),
    Nat.digitChar (n / 10 % 10), Nat.digitChar (n % 10)]

/-- Python `f"{idx:06d}"`: decimal digits left-padded with zeros to width
at least six. -/
def pad6 (n : Nat) : String :=
  if n < 1000000 then sixDigits n else Nat.repr n

/-- The EID string of position `i` in the section with prefix `pfx`. -/
def eidOf (pfx : String) (i : Nat) : String :=
  pfx ++ "#" ++ pad6 i

/-- Optional relative-minutes value as a packet field. -/
def optIntToJ : Option Int → JVal
  | none => .null
  | some m => .int m

/-- First candidate timestamp field that yields a relative time
(`_attach_eids_and_times` inner loop). -/
def firstRelMin (admitD : DT) (row : Row) : List String → Option Int
  | [] => none
  | f :: fs =>
    match minutesSince admitD (rowGet row f) with
    | some m => some m
    | none => firstRelMin admitD row fs

/-- One row of `_attach_eids_and_times`: drop the configured fields, set
the EID from the 1-based position, then add each relative-time field. -/
def attachRow (pfx : String) (admitD : DT) (timeFields : List (String × List String))
    (dropFields : List String) (i : Nat) (row : Row) : Row :=
  let base := row.filter (fun kv => !(dropFields.contains kv.1))
  let withEid := setKey base "eid" (.str (eidOf pfx i))
  timeFields.foldl (fun acc tf => setKey acc tf.1 (optIntToJ (firstRelMin admitD row tf.2))) withEid

/-- `_attach_eids_and_times` from position `i`. -/
def attachGo (pfx : String) (admitD : DT) (tf : List (String × List String))
    (df : List String) : Nat → List Row → List Row
  | _, [] => []
  | i, r :: rs => attachRow pfx admitD tf df i r :: attachGo pfx admitD tf df (i + 1) rs

/-- `PacketExtractor._attach_eids_and_times` (enumeration starts at 1). -/
def attachRows (pfx : String) (admitD : DT) (tf : List (String × List String))
    (df : List String) (rows : List Row) : List Row :=
  attachGo pfx admitD tf df 1 rows

/-- Extraction flags of `config.ExtractionConfig` that the packet depends
on (query-side settings such as the padding hours live in the SQL sent to
the row store and are outside the model). -/
structure ExtractionCfg where
  proximal_lab_capture : Bool
  proximal_micro_capture : Bool
  require_discharge_note : Bool
  include_icu_stays : Bool
  emar_time_window_fallback : Bool
deriving DecidableEq, Repr

/-- The configuration slice of `BenchmarkConfig` used by the extractor. -/
structure Cfg where
  packet_schema_version : String
  benchmark_version : String
  mimiciv : String
  mimiciv_note : String
  extraction : ExtractionCfg
  per_section_row_caps : List (String × Option Int)
deriving DecidableEq, Repr

/-- Row-store responses for one `extract_admission_packet` call: the
result of every query the extractor issues, in the source's order.  The
SQL `WHERE`/`ORDER BY` semantics are the store collaborator's contract;
the extractor consumes the returned rows as given. -/
structure StoreRows where
  admPatient : Option Row
  transfers : List Row
  services : List Row
  labsStrict : List Row
  labsProx : List Row
  microStrict : List Row
  microProx : List Row
  poe : List Row
  poeDetail : List Row
  prescriptions : List Row
  pharmacy : List Row
  emarCandidates : List Row
  emarDetailCandidates : List Row
  diagnosesIcd : List Row
  proceduresIcd : List Row
  drgcodes : List Row
  discharge : List Row
  dischargeDetail : List Row
  radiology : List Row
  radiologyDetail : List Row
  icustays : List Row
deriving DecidableEq

/-- `config.truncation.per_section_row_caps.get(section_name)`. -/
def capOf (cfg : Cfg) (name : String) : Option Int :=
  (cfg.per_section_row_caps.lookup name).join

/-- Normalize a section's rows then apply its configured cap (lines
424–477 of the extractor): the packet keeps the clipped list. -/
def secFinal (cfg : Cfg) (name : String) (rows : List Row) : List Row :=
  (clipRows (rows.map normalizeRow) (capOf cfg name)).1

/-- Per-section truncation statistics recorded in the provenance manifest
(`{"seen", "retained", "cap", "truncated"}`). -/
structure TruncStats where
  seen : Nat
  retained : Nat
  cap : Option Int
  truncated : Bool
deriving DecidableEq, Repr

/-- One iteration of the truncation loop: clip and record
`{seen, retained, cap, truncated}`. -/
def truncateSection (rows : List Row) (cap : Option Int) : List Row × TruncStats :=
  let seen := rows.length
  let (clipped, wasTruncated) := clipRows rows cap
  (clipped, ⟨seen, clipped.length, cap, wasTruncated⟩)

/-- Merged lab rows: direct-keyed rows, then (when proximal capture is on)
the time-window rows, deduplicated by `labevent_id` (lines 118–147). -/
def mergedLabs (cfg : Cfg) (st : StoreRows) : List Row :=
  if cfg.extraction.proximal_lab_capture then
    dedupeByKey (st.labsStrict ++ st.labsProx) "labevent_id"
  else st.labsStrict

/-- Merged microbiology rows, deduplicated by `microevent_id` (lines
149–193). -/
def mergedMicro (cfg : Cfg) (st : StoreRows) : List Row :=
  if cfg.extraction.proximal_micro_capture then
    dedupeByKey (st.microStrict ++ st.microProx) "microevent_id"
  else st.microStrict

/-- Selected EMAR rows for the packet. -/
def emarRows (cfg : Cfg) (st : StoreRows) (hadm : Int) (admitDt : DT)
    (dischDt : Option DT) : List Row :=
  (filterEmarCandidates st.emarCandidates hadm admitDt dischDt
    cfg.extraction.emar_time_window_fallback st.poe st.pharmacy).1

/-- EMAR detail rows restricted to the selected EMAR ids (lines 291–292). -/
def emarDetailRows (st : StoreRows) (emarSel : List Row) : List Row :=
  let ids := emarSel.map (fun r => pyStr (rowGet r "emar_id"))
  st.emarDetailCandidates.filter (fun r => ids.contains (pyStr (rowGet r "emar_id")))

/-- ICU rows, only queried when the flag is on (lines 408–421). -/
def icuRows (cfg : Cfg) (st : StoreRows) : List Row :=
  if cfg.extraction.include_icu_stays then st.icustays else []

/-- A record list as a packet section value. -/
def rowsJ (rows : List Row) : JVal :=
  .arr (rows.map .obj)

/-- Update the value at key `k` of a dict value. -/
def setKeyJ (j : JVal) (k : String) (v : JVal) : JVal :=
  match j with
  | .obj kvs => .obj (setKey kvs k v)
  | x => x

/-- `packet["packet_stats"]["sha256_canonical_packet"] = v`. -/
def setStatsHash (p : JVal) (v : JVal) : JVal :=
  match p with
  | .obj kvs =>
    .obj (kvs.map (fun kv =>
      if kv.1 = "packet_stats" then (kv.1, setKeyJ kv.2 "sha256_canonical_packet" v) else kv))
  | x => x

/-- Read `packet["packet_stats"]["sha256_canonical_packet"]`. -/
def getStatsHash (p : JVal) : JVal :=
  match p with
  | .obj kvs =>
    match kvs.lookup "packet_stats" with
    | some (.obj skvs) => (skvs.lookup "sha256_canonical_packet").getD .null
    | _ => .null
  | _ => .null

/-- The packet before hash embedding (lines 607–684 of the extractor):
linkage-resolved, normalized, truncated and EID-tagged sections in the
source's fixed layout, with a `null` content hash. -/
def buildPre (cfg : Cfg) (st : StoreRows) (subj hadm : Int) (ap : Row) (admitDt : DT) : JVal :=
  let dischDt := parseDt (rowGet ap "dischtime")
  let emarSel := emarRows cfg st hadm admitDt dischDt
  let transfersA := attachRows "XFER" admitDt [("t_rel_min", ["intime"])] ["subject_id", "hadm_id"] (secFinal cfg "transfers" st.transfers)
  let servicesA := attachRows "SVC" admitDt [("t_rel_min", ["transfertime"])] ["subject_id", "hadm_id"] (secFinal cfg "services" st.services)
  let dischargeA := attachRows "DS" admitDt [("t_rel_min", ["charttime"])] ["subject_id", "hadm_id"] (secFinal cfg "discharge" st.discharge)
  let dischargeDetailA := attachRows "DSD" admitDt [] ["subject_id"] (secFinal cfg "discharge_detail" st.dischargeDetail)
  let radiologyA := attachRows "RAD" admitDt [("t_rel_min", ["charttime"])] ["subject_id", "hadm_id"] (secFinal cfg "radiology" st.radiology)
  let radiologyDetailA := attachRows "RADD" admitDt [] ["subject_id"] (secFinal cfg "radiology_detail" st.radiologyDetail)
  let labsA := attachRows "LAB" admitDt [("t_rel_min", ["charttime", "storetime"])] ["subject_id", "hadm_id"] (secFinal cfg "labs" (mergedLabs cfg st))
  let microA := attachRows "MICRO" admitDt [("t_rel_min", ["charttime", "chartdate", "storetime", "storedate"])] ["subject_id", "hadm_id"] (secFinal cfg "microbiology" (mergedMicro cfg st))
  let poeA := attachRows "POE" admitDt [("t_rel_min", ["ordertime"])] ["subject_id", "hadm_id"] (secFinal cfg "poe" st.poe)
  let poeDetailA := attachRows "POED" admitDt [] ["subject_id"] (secFinal cfg "poe_detail" st.poeDetail)
  let prescriptionsA := attachRows "RX" admitDt [("t_rel_min", ["starttime", "stoptime"])] ["subject_id", "hadm_id"] (secFinal cfg "prescriptions" st.prescriptions)
  let pharmacyA := attachRows "PHARM" admitDt [("t_rel_min", ["entertime", "starttime"])] ["subject_id", "hadm_id"] (secFinal cfg "pharmacy" st.pharmacy)
  let emarA := attachRows "EMAR" admitDt [("t_rel_min", ["charttime", "scheduletime", "storetime"])] ["subject_id", "hadm_id"] (secFinal cfg "emar" emarSel)
  let emarDetailA := attachRows "EMD" admitDt [] ["subject_id"] (secFinal cfg "emar_detail" (emarDetailRows st emarSel))
  let diagnosesA := attachRows "DX" admitDt [] ["subject_id", "hadm_id"] (secFinal cfg "diagnoses_icd" st.diagnosesIcd)
  let proceduresA := attachRows "PX" admitDt [("t_rel_min", ["chartdate"])] ["subject_id", "hadm_id"] (secFinal cfg "procedures_icd" st.proceduresIcd)
  let drgA := attachRows "DRG" admitDt [] ["subject_id", "hadm_id"] (secFinal cfg "drgcodes" st.drgcodes)
  let icuA := attachRows "ICU" admitDt [("t_in_min", ["intime"]), ("t_out_min", ["outtime"])] ["subject_id", "hadm_id"] (secFinal cfg "icustays" (icuRows cfg st))
  JVal.obj [
    ("packet_schema_version", .str cfg.packet_schema_version),
    ("benchmark_version", .str cfg.benchmark_version),
    ("dataset_versions", .obj [("mimiciv", .str cfg.mimiciv), ("mimiciv_note", .str cfg.mimiciv_note)]),
    ("ids", .obj [("subject_id", .int subj), ("hadm_id", .int hadm)]),
    ("time_basis", .obj [
      ("admittime", dtToIsoJ (rowGet ap "admittime")),
      ("dischtime", dtToIsoJ (rowGet ap "dischtime")),
      ("timezone", .str "DEIDENTIFIED/UNKNOWN"),
      ("relative_time_unit", .str "minutes_since_admit")]),
    ("patient", .obj [
      ("eid", .str "PT#000001"),
      ("gender", rowGet ap "gender"),
      ("anchor_age", rowGet ap "anchor_age"),
      ("anchor_year", rowGet ap "anchor_year"),
      ("anchor_year_group", rowGet ap "anchor_year_group"),
      ("dod", dtToIsoJ (rowGet ap "dod"))]),
    ("admission", .obj [
      ("eid", .str "ADM#000001"),
      ("deathtime", dtToIsoJ (rowGet ap "deathtime")),
      ("admission_type", rowGet ap "admission_type"),
      ("admit_provider_id", rowGet ap "admit_provider_id"),
      ("admission_location", rowGet ap "admission_location"),
      ("discharge_location", rowGet ap "discharge_location"),
      ("insurance", rowGet ap "insurance"),
      ("language", rowGet ap "language"),
      ("marital_status", rowGet ap "marital_status"),
      ("race", rowGet ap "race"),
      ("edregtime", dtToIsoJ (rowGet ap "edregtime")),
      ("edouttime", dtToIsoJ (rowGet ap "edouttime")),
      ("hospital_expire_flag", rowGet ap "hospital_expire_flag")]),
    ("location_timeline", .obj [
      ("transfers", rowsJ transfersA),
      ("services", rowsJ servicesA)]),
    ("notes", .obj [
      ("discharge", rowsJ dischargeA),
      ("discharge_detail", rowsJ dischargeDetailA),
      ("radiology", rowsJ radiologyA),
      ("radiology_detail", rowsJ radiologyDetailA)]),
    ("labs", rowsJ labsA),
    ("microbiology", rowsJ microA),
    ("orders", .obj [
      ("poe", rowsJ poeA),
      ("poe_detail", rowsJ poeDetailA),
      ("prescriptions", rowsJ prescriptionsA),
      ("pharmacy", rowsJ pharmacyA),
      ("emar", rowsJ emarA),
      ("emar_detail", rowsJ emarDetailA)]),
    ("billing", .obj [
      ("diagnoses_icd", rowsJ diagnosesA),
      ("procedures_icd", rowsJ proceduresA),
      ("drgcodes", rowsJ drgA)]),
    ("icu", .obj [
      ("has_icu_stay", .bool (!icuA.isEmpty)),
      ("icustays", rowsJ icuA)]),
    ("packet_stats", .obj [
      ("row_counts", .obj [
        ("transfers", .int (transfersA.length : Int)),
        ("services", .int (servicesA.length : Int)),
        ("labevents", .int (labsA.length : Int)),
        ("microbiologyevents", .int (microA.length : Int)),
        ("radiology", .int (radiologyA.length : Int)),
        ("discharge", .int (dischargeA.length : Int))]),
      ("sha256_canonical_packet", .null)])]

/-- Packet with the canonical hash embedded (lines 686–688): serialize the
packet while its hash field is `null`, hash, and write the digest back
into the single hash field. -/
def buildPacket (hashHex : String → String) (cfg : Cfg) (st : StoreRows)
    (subj hadm : Int) (ap : Row) (admitDt : DT) : JVal :=
  let pre := buildPre cfg st subj hadm ap admitDt
  setStatsHash pre (.str (hashHex (dumpsV pre)))

/-- `PacketExtractor.extract_admission_packet`, returning the packet: the
admission+patient join row must exist, `admittime` must parse, and (when
required) a discharge note must be present.  The Python code raises the
discharge error after issuing the earlier queries; error choice among the
failure cases is the only difference in sequencing. -/
def extractAdmissionPacket (hashHex : String → String) (cfg : Cfg) (st : StoreRows)
    (subj hadm : Int) : Except String JVal :=
  match st.admPatient with
  | none => .error ("Admission not found for subject_id=" ++ Int.repr subj ++ ", hadm_id=" ++ Int.repr hadm)
  | some apRaw =>
    let ap := normalizeRow apRaw
    match parseDt (rowGet ap "admittime") with
    | none => .error ("Admission " ++ Int.repr hadm ++ " missing admittime")
    | some admitDt =>
      if cfg.extraction.require_discharge_note ∧ st.discharge = [] then
        .error ("Admission " ++ Int.repr hadm ++ " has no discharge note; cannot build prompt under current policy.")
      else .ok (buildPacket hashHex cfg st subj hadm ap admitDt)

/-- Post-truncation length of every EID-carrying section, paired with its
EID prefix, in packet traversal order, preceded by the patient and
admission singleton sections. -/
def packetSectionLens (cfg : Cfg) (st : StoreRows) (hadm : Int) (ap : Row)
    (admitDt : DT) : List (String × Nat) :=
  let dischDt := parseDt (rowGet ap "dischtime")
  let emarSel := emarRows cfg st hadm admitDt dischDt
  [("PT", 1), ("ADM", 1),
   ("XFER", (secFinal cfg "transfers" st.transfers).length),
   ("SVC", (secFinal cfg "services" st.services).length),
   ("DS", (secFinal cfg "discharge" st.discharge).length),
   ("DSD", (secFinal cfg "discharge_detail" st.dischargeDetail).length),
   ("RAD", (secFinal cfg "radiology" st.radiology).length),
   ("RADD", (secFinal cfg "radiology_detail" st.radiologyDetail).length),
   ("LAB", (secFinal cfg "labs" (mergedLabs cfg st)).length),
   ("MICRO", (secFinal cfg "microbiology" (mergedMicro cfg st)).length),
   ("POE", (secFinal cfg "poe" st.poe).length),
   ("POED", (secFinal cfg "poe_detail" st.poeDetail).length),
   ("RX", (secFinal cfg "prescriptions" st.prescriptions).length),
   ("PHARM", (secFinal cfg "pharmacy" st.pharmacy).length),
   ("EMAR", (secFinal cfg "emar" emarSel).length),
   ("EMD", (secFinal cfg "emar_detail" (emarDetailRows st emarSel)).length),
   ("DX", (secFinal cfg "diagnoses_icd" st.diagnosesIcd).length),
   ("PX", (secFinal cfg "procedures_icd" st.proceduresIcd).length),
   ("DRG", (secFinal cfg "drgcodes" st.drgcodes).length),
   ("ICU", (secFinal cfg "icustays" (icuRows cfg st)).length)]

/-- `packetSectionLens` recomputed from the store alone (defined exactly
when extraction succeeds). -/
def packetSectionLensOf (cfg : Cfg) (st : StoreRows) (hadm : Int) : List (String × Nat) :=
  match st.admPatient with
  | none => []
  | some apRaw =>
    let ap := normalizeRow apRaw
    match parseDt (rowGet ap "admittime") with
    | none => []
    | some admitDt => packetSectionLens cfg st hadm ap admitDt

/-! ## Response validator embedding (`validation.py`) -/

/-- The closed speaker role set `ALLOWED_SPEAKERS`. -/
def allowedSpeakers : List String :=
  ["PATIENT", "ATTENDING", "RESIDENT", "NURSE", "CONSULT"]

/-- Python set equality of key views: `set(keys) == set(req)`. -/
def pySetEq (keys req : List String) : Bool :=
  keys.all (fun k => req.contains k) && req.all (fun k => keys.contains k)

/-- `isinstance(v, str)`. -/
def isStrV : JVal → Bool
  | .str _ => true
  | _ => false

/-- `_is_list_of_strings`. -/
def isListOfStrings : JVal → Bool
  | .arr xs => xs.all isStrV
  | _ => false

/-- `isinstance(v, int)` — Python `bool` is a subclass of `int`, so JSON
booleans satisfy this check. -/
def pyIsInt : JVal → Bool
  | .int _ => true
  | .bool _ => true
  | _ => false

/-- Integer value of an `isinstance(·, int)` value (`True == 1`,
`False == 0`). -/
def pyIntVal : JVal → Int
  | .int n => n
  | .bool b => if b then 1 else 0
  | _ => 0

/-- `turn["speaker"] in ALLOWED_SPEAKERS` (a non-string is never a
member of the string set). -/
def speakerOk : JVal → Bool
  | .str s => allowedSpeakers.contains s
  | _ => false

/-- Required key set of a conversation turn. -/
def turnKeys : List String :=
  ["turn_id", "speaker", "relative_time", "text", "evidence_eids"]

/-- Required key set of the end-of-admission summary. -/
def summaryKeys : List String :=
  ["relative_discharge_time", "one_paragraph_summary", "problem_list",
   "key_tests_and_results", "treatments_and_meds", "disposition"]

/-- Per-turn checks of `validate_output_schema` for expected turn id `e`. -/
def checkTurn (e : Int) (turn : JVal) : Except String Unit :=
  match turn with
  | .obj kvs =>
    if ¬ pySetEq (kvs.map Prod.fst) turnKeys then .error "turn keys mismatch"
    else if ¬ pyIsInt (rowGet kvs "turn_id") then .error "turn_id must be int"
    else if ¬ (pyIntVal (rowGet kvs "turn_id") = e) then .error "turn_id must be sequential starting at 1"
    else if ¬ speakerOk (rowGet kvs "speaker") then .error "speaker invalid"
    else if ¬ isStrV (rowGet kvs "relative_time") then .error "relative_time must be string"
    else if ¬ isStrV (rowGet kvs "text") then .error "text must be string"
    else if ¬ isListOfStrings (rowGet kvs "evidence_eids") then .error "evidence_eids must be list of strings"
    else .ok ()
  | _ => .error "turn must be an object"

/-- The conversation loop of `validate_output_schema`, carrying the
`expected_turn_id` counter. -/
def checkTurns (e : Int) : List JVal → Except String Unit
  | [] => .ok ()
  | t :: ts =>
    match checkTurn e t with
    | .ok _ => checkTurns (e + 1) ts
    | .error msg => .error msg

/-- Field checks of `_validate_obj_list` items: `supporting_eids` must be
a string list, every other field a string. -/
def checkItemFields : List (String × JVal) → Except String Unit
  | [] => .ok ()
  | (k, v) :: rest =>
    if k = "supporting_eids" then
      if isListOfStrings v then checkItemFields rest
      else .error "supporting_eids must be list of strings"
    else if isStrV v then checkItemFields rest
    else .error "field must be string"

/-- Item loop of `_validate_obj_list`. -/
def checkObjItems (req : List String) : List JVal → Except String Unit
  | [] => .ok ()
  | item :: rest =>
    match item with
    | .obj kvs =>
      if ¬ pySetEq (kvs.map Prod.fst) req then .error "item keys mismatch"
      else
        match checkItemFields kvs with
        | .ok _ => checkObjItems req rest
        | .error msg => .error msg
    | _ => .error "item must be an object"

/-- `_validate_obj_list`. -/
def checkObjList (req : List String) (v : JVal) : Except String Unit :=
  match v with
  | .arr items => checkObjItems req items
  | _ => .error "must be a list"

/-- `validate_output_schema` on the parsed top-level object. -/
def validateOutputSchema (data : Row) : Except String Unit :=
  let keys := data.map Prod.fst
  if ¬ keys.all (fun k => ["conversation", "end_of_admission_summary"].contains k) then
    .error "Unexpected top-level keys"
  else if ¬ (["conversation", "end_of_admission_summary"].all (fun k => keys.contains k)) then
    .error "Missing top-level keys"
  else
    match rowGet data "conversation" with
    | .arr (t :: ts) =>
      match checkTurns 1 (t :: ts) with
      | .error msg => .error msg
      | .ok _ =>
        match rowGet data "end_of_admission_summary" with
        | .obj skvs =>
          if ¬ pySetEq (skvs.map Prod.fst) summaryKeys then
            .error "end_of_admission_summary keys mismatch"
          else if ¬ isStrV (rowGet skvs "relative_discharge_time") then
            .error "relative_discharge_time must be string"
          else if ¬ isStrV (rowGet skvs "one_paragraph_summary") then
            .error "one_paragraph_summary must be string"
          else
            match checkObjList ["problem", "status_at_discharge", "supporting_eids"] (rowGet skvs "problem_list") with
            | .error msg => .error msg
            | .ok _ =>
              match checkObjList ["test", "result", "relative_time", "supporting_eids"] (rowGet skvs "key_tests_and_results") with
              | .error msg => .error msg
              | .ok _ =>
                match checkObjList ["treatment_or_med", "details", "supporting_eids"] (rowGet skvs "treatments_and_meds") with
                | .error msg => .error msg
                | .ok _ =>
                  match rowGet skvs "disposition" with
                  | .obj dkvs =>
                    if ¬ pySetEq (dkvs.map Prod.fst) ["discharge_location", "supporting_eids"] then
                      .error "disposition keys mismatch"
                    else if ¬ isStrV (rowGet dkvs "discharge_location") then
                      .error "discharge_location must be string"
                    else if ¬ isListOfStrings (rowGet dkvs "supporting_eids") then
                      .error "disposition supporting_eids must be list of strings"
                    else .ok ()
                  | _ => .error "disposition must be an object"
        | _ => .error "end_of_admission_summary must be an object"
    | _ => .error "conversation must be a non-empty list"

/-- ASCII lowercasing of one character (`str.lower` on the alias
vocabulary, which is ASCII). -/
def charLower (c : Char) : Char :=
  if 'A' ≤ c ∧ c ≤ 'Z' then Char.ofNat (c.toNat + 32) else c

/-- `value.strip().lower()` for alias lookup. -/
def pyStripLower (s : String) : String :=
  String.mk ((pyStrip s.data).map charLower)

/-- Dict field access `j.get(k)` with `None`/non-dict default. -/
def objGet (j : JVal) (k : String) : JVal :=
  match j with
  | .obj kvs => rowGet kvs k
  | _ => .null

/-- `_build_eid_alias_map`: the fixed alias vocabulary pointing at the
packet's patient and admission EIDs. -/
def buildAliasMap (pkt : JVal) : List (String × String) :=
  (match objGet (objGet pkt "patient") "eid" with
   | .str s => [("patient", s), ("pt", s)]
   | _ => []) ++
  (match objGet (objGet pkt "admission") "eid" with
   | .str s => [("admission", s), ("adm", s)]
   | _ => [])

/-- Alias rewriting of one citation token (`alias_map.get(value.strip().
lower(), value)`); non-strings pass through. -/
def normTok (amap : List (String × String)) (v : JVal) : JVal :=
  match v with
  | .str s => .str ((amap.lookup (pyStripLower s)).getD s)
  | v => v

/-- `_normalize_eid_list`: rewrite every token of a citation list;
non-lists are returned unchanged. -/
def normList (amap : List (String × String)) (v : JVal) : JVal :=
  match v with
  | .arr xs => .arr (xs.map (normTok amap))
  | v => v

/-- Rewrite the citation list stored under key `k` of a dict, when
present (`isinstance(item, dict) and k in item`). -/
def normAtKey (amap : List (String × String)) (k : String) (t : JVal) : JVal :=
  match t with
  | .obj kvs =>
    if (kvs.lookup k).isSome then .obj (setKey kvs k (normList amap (rowGet kvs k)))
    else .obj kvs
  | t => t

/-- Rewrite the item list stored under key `k` of the summary. -/
def normSummaryList (amap : List (String × String)) (skvs : Row) (k : String) : Row :=
  match skvs.lookup k with
  | some (.arr items) => setKey skvs k (.arr (items.map (normAtKey amap "supporting_eids")))
  | _ => skvs

/-- `_normalize_output_eid_aliases_in_place`, as the rewritten response:
alias tokens are replaced in every evidence citation list (conversation
turns, the three summary item lists, and the disposition); an empty alias
map leaves the response untouched.  (Non-list `conversation`/item-list
values only occur for schema-invalid data, where the Python code would
raise; they are left unchanged here.) -/
def normalizeAliases (d : JVal) (amap : List (String × String)) : JVal :=
  if amap = [] then d
  else
    match d with
    | .obj kvs =>
      let kvs :=
        match kvs.lookup "conversation" with
        | some (.arr ts) => setKey kvs "conversation" (.arr (ts.map (normAtKey amap "evidence_eids")))
        | _ => kvs
      let kvs :=
        match kvs.lookup "end_of_admission_summary" with
        | some (.obj skvs) =>
          let skvs := normSummaryList amap skvs "problem_list"
          let skvs := normSummaryList amap skvs "key_tests_and_results"
          let skvs := normSummaryList amap skvs "treatments_and_meds"
          let skvs :=
            match skvs.lookup "disposition" with
            | some dv => setKey skvs "disposition" (normAtKey amap "supporting_eids" dv)
            | none => skvs
          setKey kvs "end_of_admission_summary" (.obj skvs)
        | _ => kvs
      .obj kvs
    | d => d

/-- Unknown-EID issues of one citation list at one site. -/
def eidIssues (site : String) (v : JVal) (valid : List String) : List String :=
  match v with
  | .arr xs =>
    xs.filterMap (fun x =>
      match x with
      | .str e => if valid.contains e then none else some (site ++ " references unknown EID: " ++ e)
      | x => some (site ++ " references unknown EID: " ++ pyStr x))
  | _ => []

/-- All evidence issues of `enforce_evidence_references`, in the source's
site order. -/
def collectIssues (d : JVal) (pkt : JVal) : List String :=
  let valid := flattenEidsList pkt
  let convIssues :=
    match objGet d "conversation" with
    | .arr ts =>
      ts.enum.flatMap (fun p =>
        eidIssues ("conversation[" ++ Nat.repr (p.1 + 1) ++ "]") (objGet p.2 "evidence_eids") valid)
    | _ => []
  let summary := objGet d "end_of_admission_summary"
  let listIssues := fun (name : String) (k : JVal) =>
    match k with
    | .arr items =>
      items.enum.flatMap (fun p =>
        eidIssues (name ++ "[" ++ Nat.repr (p.1 + 1) ++ "]") (objGet p.2 "supporting_eids") valid)
    | _ => ([] : List String)
  convIssues ++
    listIssues "problem_list" (objGet summary "problem_list") ++
    listIssues "key_tests_and_results" (objGet summary "key_tests_and_results") ++
    listIssues "treatments_and_meds" (objGet summary "treatments_and_meds") ++
    eidIssues "disposition" (objGet (objGet summary "disposition") "supporting_eids") valid

/-- `enforce_evidence_references`: rewrite aliases in place, collect
unknown-EID issues against the packet's full EID set, and raise (listing
every offending site) exactly when strict and some issue exists.  The
first component is the rewritten response (the in-place mutation). -/
def enforceEvidenceReferences (d pkt : JVal) (strict : Bool) : JVal × Except String (List String) :=
  let amap := buildAliasMap pkt
  let d2 := normalizeAliases d amap
  let issues := collectIssues d2 pkt
  (d2, if issues ≠ [] ∧ strict then .error (String.intercalate "; " issues) else .ok issues)

/-! ## Generation retry loop embedding (`pipeline.py`) -/

/-- One transport attempt record; the non-index fields are irrelevant to
the claims and collapsed into an opaque payload. -/
structure LLMAttempt where
  attempt_index : Nat
  payload : String
deriving DecidableEq, Repr

/-- Result of one successful `generate_with_retries` transport call. -/
structure LLMResult where
  text : String
  attempts : List LLMAttempt
deriving DecidableEq, Repr

/-- Contiguous 1-based renumbering of the aggregated attempt log. -/
def renumberAttempts (l : List LLMAttempt) : List LLMAttempt :=
  l.enum.map (fun p => { p.2 with attempt_index := p.1 + 1 })

/-- The literal `REPAIR_BLOCK` of `prompting.py`. -/
def repairBlock : String :=
  "<<REPAIR>>\nYour previous response was invalid JSON or violated the required schema.\nReturn valid JSON exactly matching the schema. No prose, no markdown, no comments.\n<<END_REPAIR>>"

/-- `prompting.append_repair_block`. -/
def appendRepairBlock (userMessage : String) : String :=
  userMessage ++ "\n\n" ++ repairBlock

/-- The `GenerationFailed` message raised after exhausting the budget. -/
def genFailMsg (maxAttempts : Nat) (errs : List String) : String :=
  "Model response failed validation after " ++ Nat.repr maxAttempts ++
    " schema attempts: " ++ String.intercalate " | " errs

/-- The loop body of `_generate_validated_response`.  `oracle k` is the
`LLMCallResult` of the `k`-th schema attempt's (internally retried,
ultimately successful) transport call; `validateRes` is the composite
parse/schema/evidence validation of a response text against the fixed
packet (`none` = valid, `some msg` = `ValidationError`).  The function
returns the `(system, user)` messages sent, and either the renumbered
attempt log with the accepted text, or the failure message with the
renumbered attempt log. -/
def genGo (oracle : Nat → LLMResult) (validateRes : String → Option String)
    (sys origU : String) (total : Nat) :
    Nat → Nat → String → List LLMAttempt → List String → List (String × String) →
    List (String × String) × Except (String × List LLMAttempt) (List LLMAttempt × String)
  | 0, _, _, agg, errs, sent =>
    (sent, .error (genFailMsg total errs, renumberAttempts agg))
  | remaining + 1, idx, curU, agg, errs, sent =>
    let res := oracle idx
    let agg2 := agg ++ res.attempts
    let sent2 := sent ++ [(sys, curU)]
    match validateRes res.text with
    | none => (sent2, .ok (renumberAttempts agg2, res.text))
    | some e =>
      let errs2 := errs ++ [e]
      if remaining = 0 then (sent2, .error (genFailMsg total errs2, renumberAttempts agg2))
      else genGo oracle validateRes sys origU total remaining (idx + 1) (appendRepairBlock origU) agg2 errs2 sent2

/-- `BenchmarkPipeline._generate_validated_response`: up to
`max(1, retry_limit)` schema attempts over the fixed packet and system
message. -/
def generateValidatedResponse (oracle : Nat → LLMResult) (validateRes : String → Option String)
    (sys u : String) (retryLimit : Int) :
    List (String × String) × Except (String × List LLMAttempt) (List LLMAttempt × String) :=
  let maxA := (max 1 retryLimit).toNat
  genGo oracle validateRes sys u maxA maxA 1 u [] [] []

/-! ## Claim-side predicates and statement helpers -/

/-- A well-formed row-store row: scalar field values and unique field
names, as every SQL result row has. -/
def GoodRow (r : Row) : Prop :=
  (∀ kv ∈ r, kv.2.isAtom = true) ∧ (r.map Prod.fst).Nodup

instance (r : Row) : Decidable (GoodRow r) := by
  unfold GoodRow; infer_instance

/-- Every row of a query result is well formed. -/
def GoodRows (rs : List Row) : Prop :=
  ∀ r ∈ rs, GoodRow r

instance (rs : List Row) : Decidable (GoodRows rs) := by
  unfold GoodRows; infer_instance

/-- All store responses consist of well-formed rows. -/
def GoodStore (st : StoreRows) : Prop :=
  (∀ r, st.admPatient = some r → GoodRow r) ∧
  GoodRows st.transfers ∧ GoodRows st.services ∧
  GoodRows st.labsStrict ∧ GoodRows st.labsProx ∧
  GoodRows st.microStrict ∧ GoodRows st.microProx ∧
  GoodRows st.poe ∧ GoodRows st.poeDetail ∧
  GoodRows st.prescriptions ∧ GoodRows st.pharmacy ∧
  GoodRows st.emarCandidates ∧ GoodRows st.emarDetailCandidates ∧
  GoodRows st.diagnosesIcd ∧ GoodRows st.proceduresIcd ∧
  GoodRows st.drgcodes ∧ GoodRows st.discharge ∧
  GoodRows st.dischargeDetail ∧ GoodRows st.radiology ∧
  GoodRows st.radiologyDetail ∧ GoodRows st.icustays

instance (st : StoreRows) : Decidable (GoodStore st) := by
  unfold GoodStore
  have : ∀ o : Option Row, Decidable (∀ r, o = some r → GoodRow r) := fun o =>
    match o with
    | none => .isTrue (by simp)
    | some r =>
      if h : GoodRow r then .isTrue (by simpa using h)
      else .isFalse (by simpa using h)
  exact instDecidableAnd

/-- Specification-side ordering of resolved lab rows: primary sort by the
event timestamp (`charttime`) ascending with absent timestamps last,
secondary by the stable `labevent_id` ascending. -/
def labRowLe (a b : Row) : Bool :=
  let ida := match rowGet a "labevent_id" with | .int n => n | _ => 0
  let idb := match rowGet b "labevent_id" with | .int n => n | _ => 0
  match parseDt (rowGet a "charttime"), parseDt (rowGet b "charttime") with
  | some x, some y => if x ≠ y then dtLe x y else ida ≤ idb
  | some _, none => true
  | none, some _ => false
  | none, none => ida ≤ idb

/-- Seen-key set of `_dedupe_by_key` after processing `rows` (the code's
`seen` accumulator). -/
def seenAfter (k : String) (seen : List JVal) : List Row → List JVal
  | [] => seen
  | r :: rs =>
    let v := rowGet r k
    seenAfter k (if v ∈ seen then seen else v :: seen) rs

/-- Direct admission-key match of an EMAR candidate (precedence step 1). -/
def emarDirect (hadm : Int) (r : Row) : Bool :=
  rowGet r "hadm_id" == JVal.int hadm

/-- Pharmacy linkage of an EMAR candidate (precedence step 3): a non-null
pharmacy reference matching a pharmacy record linked to the admission. -/
def emarPharmMatch (pharmRows : List Row) (r : Row) : Bool :=
  !(isNullish (rowGet r "pharmacy_id")) &&
    (targetIds pharmRows "pharmacy_id").contains (pyStr (rowGet r "pharmacy_id"))

/-- Order linkage of an EMAR candidate (precedence step 4). -/
def emarPoeMatch (poeRows : List Row) (r : Row) : Bool :=
  !(isNullish (rowGet r "poe_id")) &&
    (targetIds poeRows "poe_id").contains (pyStr (rowGet r "poe_id"))

/-- The per-candidate inclusion decision in the source's precedence
order, over the pharmacy/order id sets computed before the loop. -/
def emarIncluded (hadm : Int) (admitD : DT) (disch : Option DT) (fallback : Bool)
    (pharmIds poeIds : List String) (r : Row) : Bool :=
  if rowGet r "hadm_id" == JVal.int hadm then true
  else if !(isNullish (rowGet r "hadm_id")) then false
  else if !(isNullish (rowGet r "pharmacy_id")) &&
      pharmIds.contains (pyStr (rowGet r "pharmacy_id")) then true
  else if !(isNullish (rowGet r "poe_id")) &&
      poeIds.contains (pyStr (rowGet r "poe_id")) then true
  else fallback && emarWindowOk admitD disch r

/-- Specification-side per-turn well-formedness for expected id `e`. -/
def wfTurn (e : Int) (t : JVal) : Bool :=
  match t with
  | .obj kvs =>
    pySetEq (kvs.map Prod.fst) turnKeys &&
    pyIsInt (rowGet kvs "turn_id") &&
    (pyIntVal (rowGet kvs "turn_id") == e) &&
    speakerOk (rowGet kvs "speaker") &&
    isStrV (rowGet kvs "relative_time") &&
    isStrV (rowGet kvs "text") &&
    isListOfStrings (rowGet kvs "evidence_eids")
  | _ => false

/-- Specification-side summary-item well-formedness. -/
def wfItem (req : List String) (item : JVal) : Bool :=
  match item with
  | .obj kvs =>
    pySetEq (kvs.map Prod.fst) req &&
    kvs.all (fun kv => if kv.1 = "supporting_eids" then isListOfStrings kv.2 else isStrV kv.2)
  | _ => false

/-- Specification-side structured-list well-formedness. -/
def wfObjList (req : List String) (v : JVal) : Bool :=
  match v with
  | .arr items => items.all (wfItem req)
  | _ => false

/-- Specification-side response well-formedness, written from the claim's
enumeration: exact top-level key set, a non-empty conversation whose
`i`-th turn (0-based) is an object with the exact turn key set, integer
`turn_id` equal to `i + 1` (Python treats booleans as integers), a
speaker from the closed role set and correctly typed fields, and a
summary object whose nested structures match their required key sets with
correctly typed fields. -/
def wfResponse (data : Row) : Bool :=
  pySetEq (data.map Prod.fst) ["conversation", "end_of_admission_summary"] &&
  (match rowGet data "conversation" with
   | .arr ts => !ts.isEmpty && ts.enum.all (fun p => wfTurn ((p.1 : Int) + 1) p.2)
   | _ => false) &&
  (match rowGet data "end_of_admission_summary" with
   | .obj skvs =>
     pySetEq (skvs.map Prod.fst) summaryKeys &&
     isStrV (rowGet skvs "relative_discharge_time") &&
     isStrV (rowGet skvs "one_paragraph_summary") &&
     wfObjList ["problem", "status_at_discharge", "supporting_eids"] (rowGet skvs "problem_list") &&
     wfObjList ["test", "result", "relative_time", "supporting_eids"] (rowGet skvs "key_tests_and_results") &&
     wfObjList ["treatment_or_med", "details", "supporting_eids"] (rowGet skvs "treatments_and_meds") &&
     (match rowGet skvs "disposition" with
      | .obj dkvs =>
        pySetEq (dkvs.map Prod.fst) ["discharge_location", "supporting_eids"] &&
        isStrV (rowGet dkvs "discharge_location") &&
        isListOfStrings (rowGet dkvs "supporting_eids")
      | _ => false)
   | _ => false)

/-! ## Concrete fixtures for counterexamples and witnesses -/

/-- A default configuration slice (all policy flags on, labs capped). -/
def cexCfg : Cfg :=
  { packet_schema_version := "0.1.0"
    benchmark_version := "0.1.0"
    mimiciv := "3.1"
    mimiciv_note := "2.2"
    extraction :=
      { proximal_lab_capture := true
        proximal_micro_capture := true
        require_discharge_note := true
        include_icu_stays := true
        emar_time_window_fallback := true }
    per_section_row_caps := [("labs", some 800), ("microbiology", some 200)] }

/-- Admission+patient join row of the concrete fixture: a two-day stay
admitted 2020-01-01 00:00. -/
def cexAp : Row :=
  [("subject_id", .int 1), ("hadm_id", .int 100),
   ("admittime", .time ⟨2020, 1, 1, 0, 0, 0⟩),
   ("dischtime", .time ⟨2020, 1, 3, 0, 0, 0⟩),
   ("gender", .str "F"), ("anchor_age", .int 44)]

/-- A directly linked lab drawn at hour 10 of the admission. -/
def cexLabStrict : Row :=
  [("labevent_id", .int 1), ("subject_id", .int 1), ("hadm_id", .int 100),
   ("charttime", .time ⟨2020, 1, 1, 10, 0, 0⟩), ("value", .str "9.9")]

/-- A proximally captured lab (null admission key, charttime inside the
admission window) drawn at hour 2, earlier than the direct lab. -/
def cexLabProx : Row :=
  [("labevent_id", .int 2), ("subject_id", .int 1), ("hadm_id", .null),
   ("charttime", .time ⟨2020, 1, 1, 2, 0, 0⟩), ("value", .str "1.1")]

/-- Store responses of the concrete fixture: one discharge note, the two
labs above, everything else empty. -/
def cexSt : StoreRows :=
  { admPatient := some cexAp
    transfers := []
    services := []
    labsStrict := [cexLabStrict]
    labsProx := [cexLabProx]
    microStrict := []
    microProx := []
    poe := []
    poeDetail := []
    prescriptions := []
    pharmacy := []
    emarCandidates := []
    emarDetailCandidates := []
    diagnosesIcd := []
    proceduresIcd := []
    drgcodes := []
    discharge := [[("note_id", .str "DN1"), ("subject_id", .int 1), ("hadm_id", .int 100),
                   ("note_type", .str "DS"), ("note_seq", .int 1),
                   ("charttime", .time ⟨2020, 1, 3, 0, 0, 0⟩), ("text", .str "ok")]]
    dischargeDetail := []
    radiology := []
    radiologyDetail := []
    icustays := [] }

/-- Specification-side ordering of resolved microbiology rows: primary by
`charttime` ascending (absent last), secondary by `microevent_id`. -/
def microRowLe (a b : Row) : Bool :=
  let ida := match rowGet a "microevent_id" with | .int n => n | _ => 0
  let idb := match rowGet b "microevent_id" with | .int n => n | _ => 0
  match parseDt (rowGet a "charttime"), parseDt (rowGet b "charttime") with
  | some x, some y => if x ≠ y then dtLe x y else ida ≤ idb
  | some _, none => true
  | none, some _ => false
  | none, none => ida ≤ idb

/-- Tokens of one citation list (non-lists contribute no tokens). -/
def tokensOf : JVal → List JVal
  | .arr xs => xs
  | _ => []

/-- A citation token is a known EID string of the packet. -/
def tokenKnown (valid : List String) (x : JVal) : Bool :=
  match x with
  | .str e => valid.contains e
  | _ => false

/-- All citation tokens of an item list under citation key `k`. -/
def sectionTokens (k : String) (v : JVal) : List JVal :=
  match v with
  | .arr ts => ts.flatMap (fun t => tokensOf (objGet t k))
  | _ => []

/-- Specification-side list of every cited token at every citation site
of a response: conversation turns, the three summary item lists, and the
disposition. -/
def citedTokens (d : JVal) : List JVal :=
  sectionTokens "evidence_eids" (objGet d "conversation") ++
  sectionTokens "supporting_eids" (objGet (objGet d "end_of_admission_summary") "problem_list") ++
  sectionTokens "supporting_eids" (objGet (objGet d "end_of_admission_summary") "key_tests_and_results") ++
  sectionTokens "supporting_eids" (objGet (objGet d "end_of_admission_summary") "treatments_and_meds") ++
  tokensOf (objGet (objGet (objGet d "end_of_admission_summary") "disposition") "supporting_eids")

/-- Specification-side: every cited token of the response is a known
packet EID. -/
def wfCitations (d : JVal) (valid : List String) : Bool :=
  (citedTokens d).all (tokenKnown valid)

/-- A minimal packet carrying the patient and admission EIDs. -/
def c8Pkt : JVal :=
  .obj [("patient", .obj [("eid", .str "PT#000001")]),
        ("admission", .obj [("eid", .str "ADM#000001")])]

/-- A response whose single conversation turn cites the alias `"Pt"`. -/
def c8Resp : JVal :=
  .obj [("conversation", .arr [.obj [("evidence_eids", .arr [.str "Pt"])]])]

/-! ## Theorems -/

/-! ### C3 and C10: truncation -/

/-- C3: for a configured non-negative integer cap `C`, truncation retains
exactly `min(seen, C)` rows, and the retained rows are exactly the first
`C` rows of the pre-truncation sequence; the recorded per-section stats
are exactly `{seen, retained, cap, truncated}` with `truncated` true iff
`seen > C`; a `None` cap always retains every row. -/
theorem c3_truncation_law :
    (∀ (rows : List Row) (C : Int), 0 ≤ C →
      (truncateSection rows (some C)).1.length = min rows.length C.toNat ∧
      (truncateSection rows (some C)).1 = rows.take C.toNat ∧
      (truncateSection rows (some C)).2 =
        ⟨rows.length, min rows.length C.toNat, some C, decide (C < (rows.length : Int))⟩) ∧
    (∀ rows : List Row,
      (truncateSection rows none).1 = rows ∧
      (truncateSection rows none).2 = ⟨rows.length, rows.length, none, false⟩) := by
  constructor
  · intro rows C hC
    have hnotneg : ¬ C < 0 := by omega
    by_cases hle : (rows.length : Int) ≤ C
    · have hlen : rows.length ≤ C.toNat := by omega
      have htake : rows.take C.toNat = rows := List.take_of_length_le hlen
      have hmin : min rows.length C.toNat = rows.length := by omega
      have hflag : decide (C < (rows.length : Int)) = false := by
        simp; omega
      simp [truncateSection, clipRows, hnotneg, hle, htake, hmin, hflag]
    · have hlen : C.toNat ≤ rows.length := by omega
      have hmin : min rows.length C.toNat = C.toNat := by omega
      have hflag : decide (C < (rows.length : Int)) = true := by
        simp; omega
      simp [truncateSection, clipRows, hnotneg, hle, hmin, hflag, List.length_take]
      omega
  · intro rows
    simp [truncateSection, clipRows]

/-- Witness for C3 at concrete inputs: a cap of 1 on two rows keeps the
first row, an uncapped section keeps everything. -/
theorem c3_truncation_law_witness :
    (truncateSection [[("x", JVal.int 1)], [("x", JVal.int 2)]] (some 1)).1 = [[("x", JVal.int 1)]] ∧
    (truncateSection [[("x", JVal.int 1)]] none).1 = [[("x", JVal.int 1)]] := by
  constructor
  · exact ((c3_truncation_law.1 [[("x", JVal.int 1)], [("x", JVal.int 2)]] 1 (by decide)).2.1).trans (by decide)
  · exact (c3_truncation_law.2 [[("x", JVal.int 1)]]).1

/-- C10: a negative per-section cap is treated exactly like an uncapped
section by `clip_rows`: all rows are retained and the truncation flag is
false, the same result as a `None` cap. -/
theorem c10_negative_cap_uncapped :
    ∀ (rows : List Row) (C : Int), C < 0 →
      clipRows rows (some C) = (rows, false) ∧
      clipRows rows (some C) = clipRows rows none := by
  intro rows C hC
  constructor <;> simp [clipRows, hC]

/-- Witness for C10: cap `-3` keeps both rows untruncated. -/
theorem c10_negative_cap_uncapped_witness :
    clipRows [[("a", JVal.null)], [("b", JVal.int 2)]] (some (-3)) =
      ([[("a", JVal.null)], [("b", JVal.int 2)]], false) :=
  (c10_negative_cap_uncapped [[("a", JVal.null)], [("b", JVal.int 2)]] (-3) (by decide)).1

/-! ### C5: ordering of linkage-resolved categories -/

theorem dedupeFrom_append (k : String) (seen : List JVal) (a b : List Row) :
    dedupeFrom k seen (a ++ b) =
      dedupeFrom k seen a ++ dedupeFrom k (seenAfter k seen a) b := by
  induction a generalizing seen with
  | nil => simp [dedupeFrom, seenAfter]
  | cons r rs ih =>
    simp only [List.cons_append, dedupeFrom, seenAfter]
    by_cases h : rowGet r k ∈ seen
    · simp [h, ih]
    · simp [h, ih]

theorem dedupeFrom_sublist (k : String) (seen : List JVal) (l : List Row) :
    List.Sublist (dedupeFrom k seen l) l := by
  induction l generalizing seen with
  | nil => simp [dedupeFrom]
  | cons r rs ih =>
    simp only [dedupeFrom]
    by_cases h : rowGet r k ∈ seen
    · simpa [h] using (ih seen).cons r
    · simpa [h] using (ih _).cons₂ r

/-- C5 counterexample: with proximal capture on, a directly linked lab
charted at hour 10 precedes a proximally captured lab charted at hour 2
in the merged-and-deduplicated sequence, so the resolved lab rows are not
ordered by event timestamp ascending. -/
theorem c5_ordering_counterexample :
    ¬ List.Pairwise (fun a b => labRowLe a b = true) (mergedLabs cexCfg cexSt) := by
  decide

/-- C5 amended: the merged lab (respectively microbiology) sequence is
the deduplicated directly-linked rows followed by the proximal rows whose
event key was not already seen; each segment preserves the timestamp
ordering of its source query, but the concatenation is not re-sorted
globally. -/
theorem c5_merge_order_amended :
    ∀ (cfg : Cfg) (st : StoreRows),
      cfg.extraction.proximal_lab_capture = true →
      cfg.extraction.proximal_micro_capture = true →
      (mergedLabs cfg st =
        dedupeByKey st.labsStrict "labevent_id" ++
          dedupeFrom "labevent_id" (seenAfter "labevent_id" [] st.labsStrict) st.labsProx) ∧
      (List.Pairwise (fun a b => labRowLe a b = true) st.labsStrict →
        List.Pairwise (fun a b => labRowLe a b = true) (dedupeByKey st.labsStrict "labevent_id")) ∧
      (List.Pairwise (fun a b => labRowLe a b = true) st.labsProx →
        List.Pairwise (fun a b => labRowLe a b = true)
          (dedupeFrom "labevent_id" (seenAfter "labevent_id" [] st.labsStrict) st.labsProx)) ∧
      (mergedMicro cfg st =
        dedupeByKey st.microStrict "microevent_id" ++
          dedupeFrom "microevent_id" (seenAfter "microevent_id" [] st.microStrict) st.microProx) ∧
      (List.Pairwise (fun a b => microRowLe a b = true) st.microStrict →
        List.Pairwise (fun a b => microRowLe a b = true) (dedupeByKey st.microStrict "microevent_id")) ∧
      (List.Pairwise (fun a b => microRowLe a b = true) st.microProx →
        List.Pairwise (fun a b => microRowLe a b = true)
          (dedupeFrom "microevent_id" (seenAfter "microevent_id" [] st.microStrict) st.microProx)) := by
  intro cfg st hl hm
  refine ⟨?_, ?_, ?_, ?_, ?_, ?_⟩
  · simp [mergedLabs, hl, dedupeByKey, dedupeFrom_append]
  · exact fun h => h.sublist (dedupeFrom_sublist _ _ _)
  · exact fun h => h.sublist (dedupeFrom_sublist _ _ _)
  · simp [mergedMicro, hm, dedupeByKey, dedupeFrom_append]
  · exact fun h => h.sublist (dedupeFrom_sublist _ _ _)
  · exact fun h => h.sublist (dedupeFrom_sublist _ _ _)

/-- Witness for the amended C5 theorem at the concrete fixture. -/
theorem c5_merge_order_amended_witness :
    mergedLabs cexCfg cexSt = [cexLabStrict, cexLabProx] := by
  have h := (c5_merge_order_amended cexCfg cexSt rfl rfl).1
  exact h.trans (by decide)

/-! ### C9: the bounded repair-retry loop -/

theorem genGo_allfail (oracle : Nat → LLMResult) (validateRes : String → Option String)
    (sys origU : String) (total : Nat) (errOf : Nat → String) :
    ∀ (remaining idx : Nat) (curU : String) (agg : List LLMAttempt)
      (errs : List String) (sent : List (String × String)),
      0 < remaining →
      (∀ k, idx ≤ k → k < idx + remaining → validateRes (oracle k).text = some (errOf k)) →
      genGo oracle validateRes sys origU total remaining idx curU agg errs sent =
        (sent ++ (sys, curU) :: List.replicate (remaining - 1) (sys, appendRepairBlock origU),
          .error (genFailMsg total (errs ++ (List.range' idx remaining).map errOf),
            renumberAttempts (agg ++ ((List.range' idx remaining).map fun k => (oracle k).attempts).flatten))) := by
  intro remaining
  induction remaining with
  | zero => intro idx curU agg errs sent h; omega
  | succ n ih =>
    intro idx curU agg errs sent _ hfail
    have hidx : validateRes (oracle idx).text = some (errOf idx) :=
      hfail idx le_rfl (by omega)
    cases n with
    | zero =>
      simp [genGo, hidx, List.range'_succ]
    | succ m =>
      have hrec := ih (idx + 1) (appendRepairBlock origU)
        (agg ++ (oracle idx).attempts) (errs ++ [errOf idx]) (sent ++ [(sys, curU)])
        (by omega) (fun k hk1 hk2 => hfail k (by omega) (by omega))
      conv_lhs => rw [genGo]
      simp only [hidx]
      rw [if_neg (by omega : ¬ (m + 1 = 0))]
      rw [hrec, List.range'_succ]
      simp [List.replicate_succ, List.range'_succ, List.append_assoc]

/-- C9: when every one of the `max(1, retry_limit)` validation attempts
fails, the loop sends the unchanged system message each time with the
user message equal to the original on the first attempt and the original
with the repair block appended verbatim on every later attempt, fails
with the concatenation (`" | "`-joined) of all validation error messages,
and the aggregated attempt log is the concatenation of every transport
call's attempts renumbered contiguously from 1, so its length is the
total number of transport+validation attempts made. -/
theorem c9_repair_loop_bound (oracle : Nat → LLMResult) (validateRes : String → Option String)
    (sys u : String) (retryLimit : Int) (errOf : Nat → String)
    (hfail : ∀ k, 1 ≤ k → k ≤ (max 1 retryLimit).toNat →
      validateRes (oracle k).text = some (errOf k)) :
    generateValidatedResponse oracle validateRes sys u retryLimit =
      ((sys, u) :: List.replicate ((max 1 retryLimit).toNat - 1) (sys, appendRepairBlock u),
        .error
          (genFailMsg (max 1 retryLimit).toNat
            ((List.range' 1 (max 1 retryLimit).toNat).map errOf),
          renumberAttempts
            (((List.range' 1 (max 1 retryLimit).toNat).map fun k => (oracle k).attempts).flatten))) ∧
    (renumberAttempts
        (((List.range' 1 (max 1 retryLimit).toNat).map fun k => (oracle k).attempts).flatten)).map
        (fun a => a.attempt_index) =
      List.range' 1
        (((List.range' 1 (max 1 retryLimit).toNat).map fun k => (oracle k).attempts).flatten).length ∧
    (renumberAttempts
        (((List.range' 1 (max 1 retryLimit).toNat).map fun k => (oracle k).attempts).flatten)).length =
      (((List.range' 1 (max 1 retryLimit).toNat).map fun k => (oracle k).attempts).flatten).length := by
  have hpos : 0 < (max 1 retryLimit).toNat := by
    have h1 : (1 : Int) ≤ max 1 retryLimit := le_max_left _ _
    omega
  refine ⟨?_, ?_, ?_⟩
  · have h := genGo_allfail oracle validateRes sys u (max 1 retryLimit).toNat errOf
      (max 1 retryLimit).toNat 1 u [] [] [] hpos
      (fun k hk1 hk2 => hfail k hk1 (by omega))
    simpa [generateValidatedResponse] using h
  · unfold renumberAttempts
    rw [List.map_map]
    have : ((fun a => a.attempt_index) ∘ fun p : Nat × LLMAttempt =>
        { p.2 with attempt_index := p.1 + 1 }) = fun p : Nat × LLMAttempt => p.1 + 1 := rfl
    rw [this]
    have henum : ∀ (l : List LLMAttempt), l.enum.map (fun p => p.1 + 1) = List.range' 1 l.length := by
      intro l
      have h1 : l.enum.map (fun p => p.1 + 1) = (l.enum.map Prod.fst).map (fun i => i + 1) := by
        rw [List.map_map]; rfl
      rw [h1, List.enum_map_fst, List.range'_eq_map_range]
      exact (List.map_congr_left (fun a _ => Nat.add_comm a 1)).symm ▸ rfl
    exact henum _
  · simp [renumberAttempts]

/-- Witness for C9: retry limit 2, every response invalid with message
`"boom"`; the loop sends the original then the repaired user message,
fails with both messages joined, and renumbers the two attempts 1, 2. -/
theorem c9_repair_loop_bound_witness :
    generateValidatedResponse (fun _ => ⟨"bad", [⟨0, "t"⟩]⟩) (fun _ => some "boom") "S" "U" 2 =
      ([("S", "U"), ("S", appendRepairBlock "U")],
        .error (genFailMsg 2 ["boom", "boom"], [⟨1, "t"⟩, ⟨2, "t"⟩])) := by
  have h := (c9_repair_loop_bound (fun _ => ⟨"bad", [⟨0, "t"⟩]⟩) (fun _ => some "boom")
    "S" "U" 2 (fun _ => "boom") (fun k h1 h2 => rfl)).1
  exact h.trans rfl

/-! ### C4: EMAR linkage precedence -/

theorem emarLoop_fst (hadm : Int) (admitD : DT) (disch : Option DT) (fallback : Bool)
    (pharmIds poeIds : List String) :
    ∀ cands : List Row,
      (emarLoop hadm admitD disch fallback pharmIds poeIds cands).1 =
      cands.filter (emarIncluded hadm admitD disch fallback pharmIds poeIds) := by
  intro cands
  induction cands with
  | nil => simp [emarLoop]
  | cons r rs ih =>
    cases h1 : rowGet r "hadm_id" == JVal.int hadm with
    | true => simp [emarLoop, List.filter_cons, emarIncluded, h1, ih]
    | false =>
      cases h2 : isNullish (rowGet r "hadm_id") with
      | false => simp [emarLoop, List.filter_cons, emarIncluded, h1, h2, ih]
      | true =>
        cases h3 : !(isNullish (rowGet r "pharmacy_id")) &&
            pharmIds.contains (pyStr (rowGet r "pharmacy_id")) with
        | true =>
          have h3p : isNullish (rowGet r "pharmacy_id") = false ∧
              pyStr (rowGet r "pharmacy_id") ∈ pharmIds := by
            simpa using h3
          simp [emarLoop, List.filter_cons, emarIncluded, h1, h2, h3p, ih]
        | false =>
          have h3p : ¬ (isNullish (rowGet r "pharmacy_id") = false ∧
              pyStr (rowGet r "pharmacy_id") ∈ pharmIds) := by
            intro hc
            have hcc : (!(isNullish (rowGet r "pharmacy_id")) &&
                pharmIds.contains (pyStr (rowGet r "pharmacy_id"))) = true := by
              simp [hc.1, hc.2]
            rw [h3] at hcc
            exact Bool.noConfusion hcc
          cases h4 : !(isNullish (rowGet r "poe_id")) &&
              poeIds.contains (pyStr (rowGet r "poe_id")) with
          | true =>
            have h4p : isNullish (rowGet r "poe_id") = false ∧
                pyStr (rowGet r "poe_id") ∈ poeIds := by
              simpa using h4
            simp [emarLoop, List.filter_cons, emarIncluded, h1, h2, h3p, h4p, ih]
          | false =>
            have h4p : ¬ (isNullish (rowGet r "poe_id") = false ∧
                pyStr (rowGet r "poe_id") ∈ poeIds) := by
              intro hc
              have hcc : (!(isNullish (rowGet r "poe_id")) &&
                  poeIds.contains (pyStr (rowGet r "poe_id"))) = true := by
                simp [hc.1, hc.2]
              rw [h4] at hcc
              exact Bool.noConfusion hcc
            cases h5 : fallback && emarWindowOk admitD disch r with
            | true =>
              have h5p : fallback = true ∧ emarWindowOk admitD disch r = true := by
                simpa using h5
              obtain ⟨hf, hw⟩ := h5p
              subst hf
              simp [emarLoop, List.filter_cons, emarIncluded, h1, h2, h3, h4, h5, hw, h3p, h4p, ih]
            | false =>
              have h5p : ¬ (fallback = true ∧ emarWindowOk admitD disch r = true) := by
                intro hc
                have hcc : (fallback && emarWindowOk admitD disch r) = true := by
                  simp [hc.1, hc.2]
                rw [h5] at hcc
                exact Bool.noConfusion hcc
              simp [emarLoop, List.filter_cons, emarIncluded, h1, h2, h3, h4, h5, h3p, h4p, h5p, ih]

theorem emarLoop_snd (hadm : Int) (admitD : DT) (disch : Option DT) (fallback : Bool)
    (poeRows pharmRows : List Row) :
    ∀ cands : List Row,
      (emarLoop hadm admitD disch fallback (targetIds pharmRows "pharmacy_id")
        (targetIds poeRows "poe_id") cands).2 =
      ⟨cands.countP (fun r => emarDirect hadm r),
       cands.countP (fun r => !(emarDirect hadm r) && isNullish (rowGet r "hadm_id") &&
         emarPharmMatch pharmRows r),
       cands.countP (fun r => !(emarDirect hadm r) && isNullish (rowGet r "hadm_id") &&
         !(emarPharmMatch pharmRows r) && emarPoeMatch poeRows r),
       cands.countP (fun r => !(emarDirect hadm r) && isNullish (rowGet r "hadm_id") &&
         !(emarPharmMatch pharmRows r) && !(emarPoeMatch poeRows r) &&
         (fallback && emarWindowOk admitD disch r)),
       cands.countP (fun r => (!(emarDirect hadm r) && !(isNullish (rowGet r "hadm_id"))) ||
         (!(emarDirect hadm r) && isNullish (rowGet r "hadm_id") &&
          !(emarPharmMatch pharmRows r) && !(emarPoeMatch poeRows r) &&
          !(fallback && emarWindowOk admitD disch r)))⟩ := by
  intro cands
  induction cands with
  | nil => simp [emarLoop]
  | cons r rs ih =>
    cases h1 : rowGet r "hadm_id" == JVal.int hadm with
    | true =>
      simp [emarLoop, h1, ih, List.countP_cons, emarDirect]
    | false =>
      cases h2 : isNullish (rowGet r "hadm_id") with
      | false =>
        simp [emarLoop, h1, h2, ih, List.countP_cons, emarDirect]
      | true =>
        cases h3 : !(isNullish (rowGet r "pharmacy_id")) &&
            (targetIds pharmRows "pharmacy_id").contains (pyStr (rowGet r "pharmacy_id")) with
        | true =>
          have h3m : emarPharmMatch pharmRows r = true := h3
          have h3p : isNullish (rowGet r "pharmacy_id") = false ∧
              pyStr (rowGet r "pharmacy_id") ∈ targetIds pharmRows "pharmacy_id" := by
            simpa using h3
          simp [emarLoop, h1, h2, h3p, h3m, ih, List.countP_cons, emarDirect]
        | false =>
          have h3m : emarPharmMatch pharmRows r = false := h3
          have h3p : ¬ (isNullish (rowGet r "pharmacy_id") = false ∧
              pyStr (rowGet r "pharmacy_id") ∈ targetIds pharmRows "pharmacy_id") := by
            intro hc
            have hcc : (!(isNullish (rowGet r "pharmacy_id")) &&
                (targetIds pharmRows "pharmacy_id").contains (pyStr (rowGet r "pharmacy_id"))) = true := by
              simp [hc.1, hc.2]
            rw [h3] at hcc
            exact Bool.noConfusion hcc
          cases h4 : !(isNullish (rowGet r "poe_id")) &&
              (targetIds poeRows "poe_id").contains (pyStr (rowGet r "poe_id")) with
          | true =>
            have h4m : emarPoeMatch poeRows r = true := h4
            have h4p : isNullish (rowGet r "poe_id") = false ∧
                pyStr (rowGet r "poe_id") ∈ targetIds poeRows "poe_id" := by
              simpa using h4
            simp [emarLoop, h1, h2, h3p, h3m, h4p, h4m, ih, List.countP_cons, emarDirect]
          | false =>
            have h4m : emarPoeMatch poeRows r = false := h4
            have h4p : ¬ (isNullish (rowGet r "poe_id") = false ∧
                pyStr (rowGet r "poe_id") ∈ targetIds poeRows "poe_id") := by
              intro hc
              have hcc : (!(isNullish (rowGet r "poe_id")) &&
                  (targetIds poeRows "poe_id").contains (pyStr (rowGet r "poe_id"))) = true := by
                simp [hc.1, hc.2]
              rw [h4] at hcc
              exact Bool.noConfusion hcc
            cases h5 : fallback && emarWindowOk admitD disch r with
            | true =>
              have h5p : fallback = true ∧ emarWindowOk admitD disch r = true := by
                simpa using h5
              obtain ⟨hf, hw⟩ := h5p
              subst hf
              simp [emarLoop, h1, h2, h3p, h3m, h4p, h4m, h5, hw, ih, List.countP_cons, emarDirect]
            | false =>
              have h5p : ¬ (fallback = true ∧ emarWindowOk admitD disch r = true) := by
                intro hc
                have hcc : (fallback && emarWindowOk admitD disch r) = true := by
                  simp [hc.1, hc.2]
                rw [h5] at hcc
                exact Bool.noConfusion hcc
              have h5o : fallback = false ∨ emarWindowOk admitD disch r = false := by
                cases hf : fallback with
                | false => exact Or.inl rfl
                | true =>
                  rw [hf] at h5
                  simpa using h5
              simp [emarLoop, h1, h2, h3p, h3m, h4p, h4m, h5, h5p, h5o, ih, List.countP_cons, emarDirect]

theorem stableInsert_perm (le : α → α → Bool) (x : α) :
    ∀ l : List α, (stableInsert le x l).Perm (x :: l) := by
  intro l
  induction l with
  | nil => exact List.Perm.refl _
  | cons y ys ih =>
    by_cases h : le y x = true
    · simp only [stableInsert, h, if_true]
      exact (ih.cons y).trans (List.Perm.swap x y ys)
    · simp only [stableInsert, h, if_false]
      exact List.Perm.refl _

theorem stableSortAux_perm (le : α → α → Bool) :
    ∀ (l acc : List α), (l.foldl (fun acc x => stableInsert le x acc) acc).Perm (acc ++ l) := by
  intro l
  induction l with
  | nil => simp
  | cons x xs ih =>
    intro acc
    have h1 := ih (stableInsert le x acc)
    have h2 : (stableInsert le x acc ++ xs).Perm (acc ++ x :: xs) := by
      have hx := (stableInsert_perm le x acc).append_right xs
      exact hx.trans (List.perm_middle.symm)
    simpa using h1.trans h2

theorem stableSortBy_perm (le : α → α → Bool) (l : List α) :
    (stableSortBy le l).Perm l := by
  simpa [stableSortBy] using stableSortAux_perm le l []

theorem dedupeFrom_eq_self (k : String) :
    ∀ (seen : List JVal) (l : List Row),
      (l.map (fun r => rowGet r k)).Nodup →
      (∀ r ∈ l, rowGet r k ∉ seen) →
      dedupeFrom k seen l = l := by
  intro seen l
  induction l generalizing seen with
  | nil => intro _ _; simp [dedupeFrom]
  | cons r rs ih =>
    intro hnd hseen
    have hhead : rowGet r k ∉ seen := hseen r (List.mem_cons_self r rs)
    have hnd2 : (∀ x ∈ rs, ¬ rowGet x k = rowGet r k) ∧
        (List.map (fun r => rowGet r k) rs).Nodup := by
      simpa using hnd
    simp only [dedupeFrom, if_neg hhead]
    congr 1
    apply ih
    · exact hnd2.2
    · intro r2 hr2
      simp only [List.mem_cons]
      intro hc
      rcases hc with hc | hc
      · exact hnd2.1 r2 hr2 hc
      · exact hseen r2 (List.mem_cons_of_mem r hr2) hc

theorem filterEmar_fst_mem (cands poeRows pharmRows : List Row) (hadm : Int)
    (admitD : DT) (disch : Option DT) (fallback : Bool)
    (hkeys : (cands.map (fun r => rowGet r "emar_id")).Nodup) (r : Row) :
    r ∈ (filterEmarCandidates cands hadm admitD disch fallback poeRows pharmRows).1 ↔
      r ∈ cands ∧ emarIncluded hadm admitD disch fallback
        (targetIds pharmRows "pharmacy_id") (targetIds poeRows "poe_id") r = true := by
  have hfst : (filterEmarCandidates cands hadm admitD disch fallback poeRows pharmRows).1 =
      dedupeByKey (stableSortBy emarRowLe
        (cands.filter (emarIncluded hadm admitD disch fallback
          (targetIds pharmRows "pharmacy_id") (targetIds poeRows "poe_id")))) "emar_id" := by
    simp [filterEmarCandidates, emarLoop_fst]
  have hperm := stableSortBy_perm emarRowLe
    (cands.filter (emarIncluded hadm admitD disch fallback
      (targetIds pharmRows "pharmacy_id") (targetIds poeRows "poe_id")))
  have hnod0 : ((cands.filter (emarIncluded hadm admitD disch fallback
      (targetIds pharmRows "pharmacy_id") (targetIds poeRows "poe_id"))).map
        (fun r => rowGet r "emar_id")).Nodup :=
    hkeys.sublist ((List.filter_sublist _).map _)
  have hnodS := (hperm.map (fun r => rowGet r "emar_id")).nodup_iff.mpr hnod0
  have hded := dedupeFrom_eq_self "emar_id" []
    (stableSortBy emarRowLe
      (cands.filter (emarIncluded hadm admitD disch fallback
        (targetIds pharmRows "pharmacy_id") (targetIds poeRows "poe_id"))))
    hnodS (by simp)
  rw [hfst]
  unfold dedupeByKey
  rw [hded, hperm.mem_iff, List.mem_filter]

/-- C4: medication-administration candidates are decided in strict
precedence order — (1) a row whose admission key equals the current
admission is included; (2) a row with a non-null different admission key
is excluded outright; (3) otherwise a row whose pharmacy reference
matches a pharmacy record linked to this admission is included; (4)
otherwise a row whose order reference matches a linked order is
included; (5) otherwise, with time-window fallback enabled, a row whose
`charttime` lies in `[admittime, dischtime]` inclusive is included; (6)
otherwise it is excluded — in particular a row with a null admission key,
no pharmacy/order match and a charttime outside the window is excluded
even when fallback is enabled (conjunct 6 with `fallback = true`).  The
five linkage counters tally exactly these branches. -/
theorem c4_emar_linkage_precedence (cands poeRows pharmRows : List Row) (hadm : Int)
    (admitD : DT) (disch : Option DT) (fallback : Bool)
    (hkeys : (cands.map (fun r => rowGet r "emar_id")).Nodup) :
    ∀ sel counts,
      filterEmarCandidates cands hadm admitD disch fallback poeRows pharmRows = (sel, counts) →
      (∀ r ∈ cands, emarDirect hadm r = true → r ∈ sel) ∧
      (∀ r ∈ cands, emarDirect hadm r = false →
        isNullish (rowGet r "hadm_id") = false → r ∉ sel) ∧
      (∀ r ∈ cands, emarDirect hadm r = false →
        isNullish (rowGet r "hadm_id") = true →
        emarPharmMatch pharmRows r = true → r ∈ sel) ∧
      (∀ r ∈ cands, emarDirect hadm r = false →
        isNullish (rowGet r "hadm_id") = true →
        emarPharmMatch pharmRows r = false →
        emarPoeMatch poeRows r = true → r ∈ sel) ∧
      (∀ r ∈ cands, emarDirect hadm r = false →
        isNullish (rowGet r "hadm_id") = true →
        emarPharmMatch pharmRows r = false →
        emarPoeMatch poeRows r = false →
        fallback = true → emarWindowOk admitD disch r = true → r ∈ sel) ∧
      (∀ r ∈ cands, emarDirect hadm r = false →
        isNullish (rowGet r "hadm_id") = true →
        emarPharmMatch pharmRows r = false →
        emarPoeMatch poeRows r = false →
        (fallback && emarWindowOk admitD disch r) = false → r ∉ sel) ∧
      counts =
        ⟨cands.countP (fun r => emarDirect hadm r),
         cands.countP (fun r => !(emarDirect hadm r) && isNullish (rowGet r "hadm_id") &&
           emarPharmMatch pharmRows r),
         cands.countP (fun r => !(emarDirect hadm r) && isNullish (rowGet r "hadm_id") &&
           !(emarPharmMatch pharmRows r) && emarPoeMatch poeRows r),
         cands.countP (fun r => !(emarDirect hadm r) && isNullish (rowGet r "hadm_id") &&
           !(emarPharmMatch pharmRows r) && !(emarPoeMatch poeRows r) &&
           (fallback && emarWindowOk admitD disch r)),
         cands.countP (fun r => (!(emarDirect hadm r) && !(isNullish (rowGet r "hadm_id"))) ||
           (!(emarDirect hadm r) && isNullish (rowGet r "hadm_id") &&
            !(emarPharmMatch pharmRows r) && !(emarPoeMatch poeRows r) &&
            !(fallback && emarWindowOk admitD disch r)))⟩ := by
  intro sel counts heq
  have hsel : sel = (filterEmarCandidates cands hadm admitD disch fallback poeRows pharmRows).1 := by
    rw [heq]
  have hcounts : counts = (filterEmarCandidates cands hadm admitD disch fallback poeRows pharmRows).2 := by
    rw [heq]
  have hmem : ∀ r, r ∈ sel ↔ r ∈ cands ∧ emarIncluded hadm admitD disch fallback
      (targetIds pharmRows "pharmacy_id") (targetIds poeRows "poe_id") r = true := by
    intro r
    rw [hsel]
    exact filterEmar_fst_mem cands poeRows pharmRows hadm admitD disch fallback hkeys r
  refine ⟨?_, ?_, ?_, ?_, ?_, ?_, ?_⟩
  · intro r hr hd
    refine (hmem r).mpr ⟨hr, ?_⟩
    have hd2 : (rowGet r "hadm_id" == JVal.int hadm) = true := hd
    unfold emarIncluded
    rw [hd2]
    simp
  · intro r hr hd hnn hin
    have hd2 : (rowGet r "hadm_id" == JVal.int hadm) = false := hd
    have hv := ((hmem r).mp hin).2
    unfold emarIncluded at hv
    rw [hd2, hnn] at hv
    simp at hv
  · intro r hr hd hnul hph
    have hd2 : (rowGet r "hadm_id" == JVal.int hadm) = false := hd
    have hph2 : (!(isNullish (rowGet r "pharmacy_id")) &&
        (targetIds pharmRows "pharmacy_id").contains (pyStr (rowGet r "pharmacy_id"))) = true := hph
    refine (hmem r).mpr ⟨hr, ?_⟩
    unfold emarIncluded
    rw [hd2, hnul, hph2]
    simp
  · intro r hr hd hnul hph hpo
    have hd2 : (rowGet r "hadm_id" == JVal.int hadm) = false := hd
    have hph2 : (!(isNullish (rowGet r "pharmacy_id")) &&
        (targetIds pharmRows "pharmacy_id").contains (pyStr (rowGet r "pharmacy_id"))) = false := hph
    have hpo2 : (!(isNullish (rowGet r "poe_id")) &&
        (targetIds poeRows "poe_id").contains (pyStr (rowGet r "poe_id"))) = true := hpo
    refine (hmem r).mpr ⟨hr, ?_⟩
    unfold emarIncluded
    rw [hd2, hnul, hph2, hpo2]
    simp
  · intro r hr hd hnul hph hpo hf hw
    have hd2 : (rowGet r "hadm_id" == JVal.int hadm) = false := hd
    have hph2 : (!(isNullish (rowGet r "pharmacy_id")) &&
        (targetIds pharmRows "pharmacy_id").contains (pyStr (rowGet r "pharmacy_id"))) = false := hph
    have hpo2 : (!(isNullish (rowGet r "poe_id")) &&
        (targetIds poeRows "poe_id").contains (pyStr (rowGet r "poe_id"))) = false := hpo
    refine (hmem r).mpr ⟨hr, ?_⟩
    unfold emarIncluded
    rw [hd2, hnul, hph2, hpo2, hf, hw]
    simp
  · intro r hr hd hnul hph hpo hfw hin
    have hd2 : (rowGet r "hadm_id" == JVal.int hadm) = false := hd
    have hph2 : (!(isNullish (rowGet r "pharmacy_id")) &&
        (targetIds pharmRows "pharmacy_id").contains (pyStr (rowGet r "pharmacy_id"))) = false := hph
    have hpo2 : (!(isNullish (rowGet r "poe_id")) &&
        (targetIds poeRows "poe_id").contains (pyStr (rowGet r "poe_id"))) = false := hpo
    have hv := ((hmem r).mp hin).2
    unfold emarIncluded at hv
    rw [hd2, hnul, hph2, hpo2, hfw] at hv
    simp at hv
  · rw [hcounts]
    simpa [filterEmarCandidates] using emarLoop_snd hadm admitD disch fallback poeRows pharmRows cands

/-- Witness for C4: one direct candidate, one null-key candidate outside
the window with no links (excluded despite enabled fallback). -/
theorem c4_emar_linkage_precedence_witness :
    [("emar_id", JVal.str "e1"), ("hadm_id", JVal.int 100)] ∈
      (filterEmarCandidates
        [[("emar_id", JVal.str "e1"), ("hadm_id", JVal.int 100)],
         [("emar_id", JVal.str "e2"), ("hadm_id", JVal.null),
          ("charttime", JVal.time ⟨2021, 5, 5, 0, 0, 0⟩)]]
        100 ⟨2020, 1, 1, 0, 0, 0⟩ (some ⟨2020, 1, 3, 0, 0, 0⟩) true [] []).1 ∧
    [("emar_id", JVal.str "e2"), ("hadm_id", JVal.null),
     ("charttime", JVal.time ⟨2021, 5, 5, 0, 0, 0⟩)] ∉
      (filterEmarCandidates
        [[("emar_id", JVal.str "e1"), ("hadm_id", JVal.int 100)],
         [("emar_id", JVal.str "e2"), ("hadm_id", JVal.null),
          ("charttime", JVal.time ⟨2021, 5, 5, 0, 0, 0⟩)]]
        100 ⟨2020, 1, 1, 0, 0, 0⟩ (some ⟨2020, 1, 3, 0, 0, 0⟩) true [] []).1 := by
  have h := c4_emar_linkage_precedence
    [[("emar_id", JVal.str "e1"), ("hadm_id", JVal.int 100)],
     [("emar_id", JVal.str "e2"), ("hadm_id", JVal.null),
      ("charttime", JVal.time ⟨2021, 5, 5, 0, 0, 0⟩)]]
    [] [] 100 ⟨2020, 1, 1, 0, 0, 0⟩ (some ⟨2020, 1, 3, 0, 0, 0⟩) true (by decide) _ _ rfl
  constructor
  · exact h.1 _ (by decide) (by decide)
  · exact h.2.2.2.2.2.1 _ (by decide) (by decide) (by decide) (by decide) (by decide) (by decide)

/-! ### C2: canonical packet hash, and C6: determinism -/

theorem setKey_setKey (k : String) (v w : JVal) :
    ∀ l : Row, setKey (setKey l k v) k w = setKey l k w := by
  intro l
  induction l with
  | nil => simp [setKey]
  | cons kv rest ih =>
    by_cases h : kv.1 = k
    · cases kv
      simp_all [setKey]
    · cases kv
      simp_all [setKey]

theorem setKeyJ_setKeyJ (j : JVal) (k : String) (v w : JVal) :
    setKeyJ (setKeyJ j k v) k w = setKeyJ j k w := by
  cases j <;> simp [setKeyJ, setKey_setKey]

theorem setStatsHash_setStatsHash (p v w : JVal) :
    setStatsHash (setStatsHash p v) w = setStatsHash p w := by
  cases p with
  | obj kvs =>
    simp only [setStatsHash, List.map_map]
    congr 1
    apply List.map_congr_left
    intro kv _
    by_cases h : kv.1 = "packet_stats"
    · simp [h, setKeyJ_setKeyJ]
    · simp [h]
  | null => rfl
  | bool b => rfl
  | int n => rfl
  | str s => rfl
  | time t => rfl
  | arr xs => rfl

theorem buildPre_setHash_null (cfg : Cfg) (st : StoreRows) (subj hadm : Int)
    (ap : Row) (admitDt : DT) :
    setStatsHash (buildPre cfg st subj hadm ap admitDt) .null =
      buildPre cfg st subj hadm ap admitDt := by
  simp [buildPre, setStatsHash, setKeyJ, setKey]

theorem buildPre_getHash (cfg : Cfg) (st : StoreRows) (subj hadm : Int)
    (ap : Row) (admitDt : DT) (v : JVal) :
    getStatsHash (setStatsHash (buildPre cfg st subj hadm ap admitDt) v) = v := by
  simp [buildPre, setStatsHash, setKeyJ, setKey, getStatsHash, List.lookup]

/-- C2: in every successfully extracted packet, the embedded
`packet_stats.sha256_canonical_packet` equals the hash of the canonical
(key-sorted, compact-separator) JSON serialization of the packet with the
hash field set back to `null` — the state of the packet prior to hash
insertion — and re-embedding the stored hash reproduces the packet
exactly, so the hash field is the only field changed after hashing.
(The SHA-256 primitive is external; the statement holds for every hex
function, hence for SHA-256.) -/
theorem c2_packet_hash_integrity (hashHex : String → String) (cfg : Cfg) (st : StoreRows)
    (subj hadm : Int) (pkt : JVal)
    (hok : extractAdmissionPacket hashHex cfg st subj hadm = .ok pkt) :
    getStatsHash pkt = .str (hashHex (dumpsV (setStatsHash pkt .null))) ∧
    setStatsHash pkt (getStatsHash pkt) = pkt := by
  rcases hap : st.admPatient with _ | apRaw
  · simp [extractAdmissionPacket, hap] at hok
  · rcases hdt : parseDt (rowGet (normalizeRow apRaw) "admittime") with _ | admitDt
    · simp [extractAdmissionPacket, hap, hdt] at hok
    · by_cases hds : cfg.extraction.require_discharge_note ∧ st.discharge = []
      · simp [extractAdmissionPacket, hap, hdt, hds] at hok
      · simp only [extractAdmissionPacket, hap, hdt] at hok
        rw [if_neg hds] at hok
        have hok2 : buildPacket hashHex cfg st subj hadm (normalizeRow apRaw) admitDt = pkt := by
          simpa using hok
        subst hok2
        unfold buildPacket
        constructor
        · rw [buildPre_getHash]
          rw [setStatsHash_setStatsHash, buildPre_setHash_null]
        · rw [buildPre_getHash, setStatsHash_setStatsHash]

/-- Witness for C2: the concrete fixture extracts successfully and embeds
the (constant-function) digest of its canonical serialization. -/
theorem c2_packet_hash_integrity_witness :
    ∃ pkt, extractAdmissionPacket (fun _ => "HASH") cexCfg cexSt 1 100 = .ok pkt ∧
      getStatsHash pkt = .str "HASH" := by
  refine ⟨_, rfl, ?_⟩
  exact (c2_packet_hash_integrity (fun _ => "HASH") cexCfg cexSt 1 100 _ rfl).1

/-- C6: extraction is a pure function of the store rows and the
configuration — two calls with identical source rows, configuration and
identifiers produce byte-identical canonical packet serializations and
identical EID assignments. -/
theorem c6_extraction_deterministic (hashHex : String → String)
    (cfg₁ cfg₂ : Cfg) (st₁ st₂ : StoreRows) (subj₁ subj₂ hadm₁ hadm₂ : Int)
    (p₁ p₂ : JVal)
    (hst : st₁ = st₂) (hcfg : cfg₁ = cfg₂) (hsubj : subj₁ = subj₂) (hhadm : hadm₁ = hadm₂)
    (h₁ : extractAdmissionPacket hashHex cfg₁ st₁ subj₁ hadm₁ = .ok p₁)
    (h₂ : extractAdmissionPacket hashHex cfg₂ st₂ subj₂ hadm₂ = .ok p₂) :
    dumpsV p₁ = dumpsV p₂ ∧ flattenEidsList p₁ = flattenEidsList p₂ := by
  subst hst hcfg hsubj hhadm
  rw [h₁] at h₂
  have : p₁ = p₂ := by
    injection h₂
  subst this
  exact ⟨rfl, rfl⟩

/-- Witness for C6 at the concrete fixture. -/
theorem c6_extraction_deterministic_witness :
    ∃ p, extractAdmissionPacket (fun _ => "HASH") cexCfg cexSt 1 100 = .ok p ∧
      dumpsV p = dumpsV p := by
  refine ⟨_, rfl, ?_⟩
  exact (c6_extraction_deterministic (fun _ => "HASH") cexCfg cexCfg cexSt cexSt 1 1 100 100
    _ _ rfl rfl rfl rfl rfl rfl).1

/-! ### C1: EID assignment — flatten lemmas -/

theorem flatten_atom (v : JVal) (h : v.isAtom = true) : flattenEidsList v = [] := by
  cases v <;> simp_all [JVal.isAtom, flattenEidsList]

theorem flatten_dtToIsoJ (v : JVal) : flattenEidsList (dtToIsoJ v) = [] := by
  unfold dtToIsoJ
  cases dtToIso v <;> simp [flattenEidsList]

theorem rowGet_isAtom (r : Row) (hr : ∀ kv ∈ r, kv.2.isAtom = true) (k : String) :
    (rowGet r k).isAtom = true := by
  induction r with
  | nil => simp [rowGet, List.lookup, JVal.isAtom]
  | cons kv rest ih =>
    cases kv with
    | mk k1 v1 =>
      have htail := ih (fun kv2 h2 => hr kv2 (List.mem_cons_of_mem (k1, v1) h2))
      cases hkk : k == k1 with
      | true =>
        have hhd := hr (k1, v1) (List.mem_cons_self _ _)
        simpa [rowGet, List.lookup, hkk] using hhd
      | false =>
        simpa [rowGet, List.lookup, hkk] using htail

theorem flattenKvs_no_eid (r : Row) (hat : ∀ kv ∈ r, kv.2.isAtom = true)
    (hno : ∀ kv ∈ r, kv.1 ≠ "eid") : flattenKvs r = [] := by
  induction r with
  | nil => simp [flattenKvs]
  | cons kv rest ih =>
    cases kv with
    | mk k v =>
      have h1 : k ≠ "eid" := hno (k, v) (List.mem_cons_self _ _)
      have h2 : flattenEidsList v = [] :=
        flatten_atom v (hat (k, v) (List.mem_cons_self _ _))
      rw [flattenKvs]
      rw [if_neg (by simp [h1])]
      rw [h2]
      simp only [List.nil_append]
      exact ih (fun kv2 hm => hat kv2 (List.mem_cons_of_mem _ hm))
        (fun kv2 hm => hno kv2 (List.mem_cons_of_mem _ hm))

theorem flattenKvs_setKey_eid (r : Row) (hat : ∀ kv ∈ r, kv.2.isAtom = true)
    (hnd : (r.map Prod.fst).Nodup) (e : String) :
    flattenKvs (setKey r "eid" (.str e)) = [e] := by
  induction r with
  | nil =>
    simp [setKey, flattenKvs, JVal.isStr, JVal.strVal]
  | cons kv rest ih =>
    cases kv with
    | mk k v =>
      by_cases h : k = "eid"
      · subst h
        simp only [setKey, if_pos rfl]
        simp only [flattenKvs]
        rw [if_pos (by simp [JVal.isStr])]
        have hrest : flattenKvs rest = [] := by
          apply flattenKvs_no_eid rest
            (fun kv2 hm => hat kv2 (List.mem_cons_of_mem _ hm))
          intro kv2 hm hk2
          have hmk : kv2.1 ∈ rest.map Prod.fst := List.mem_map_of_mem Prod.fst hm
          rw [hk2] at hmk
          exact (List.nodup_cons.mp (by simpa using hnd)).1 hmk
        simp [hrest, JVal.strVal]
      · simp only [setKey, if_neg h]
        rw [flattenKvs]
        rw [if_neg (by simp [h])]
        rw [flatten_atom v (hat (k, v) (List.mem_cons_self _ _))]
        rw [ih (fun kv2 hm => hat kv2 (List.mem_cons_of_mem _ hm))
          (List.nodup_cons.mp (by simpa using hnd)).2]
        simp

theorem setKey_atoms (r : Row) (k : String) (v : JVal)
    (hat : ∀ kv ∈ r, kv.2.isAtom = true) (hv : v.isAtom = true) :
    ∀ kv ∈ setKey r k v, kv.2.isAtom = true := by
  induction r with
  | nil =>
    intro kv hm
    simp only [setKey, List.mem_singleton] at hm
    simp [hm, hv]
  | cons kv0 rest ih =>
    cases kv0 with
    | mk k1 v1 =>
      intro kv hm
      by_cases h : k1 = k
      · simp only [setKey, if_pos h, List.mem_cons] at hm
        rcases hm with hm | hm
        · simp [hm, hv]
        · exact hat kv (List.mem_cons_of_mem _ hm)
      · simp only [setKey, if_neg h, List.mem_cons] at hm
        rcases hm with hm | hm
        · exact hat kv (by simp [hm])
        · exact ih (fun kv2 h2 => hat kv2 (List.mem_cons_of_mem _ h2)) kv hm

theorem flattenKvs_setKey_ne (k : String) (v : JVal) (hk : k ≠ "eid")
    (hv : flattenEidsList v = []) :
    ∀ r : Row, (∀ kv ∈ r, kv.1 = k → flattenEidsList kv.2 = []) →
      flattenKvs (setKey r k v) = flattenKvs r := by
  intro r
  induction r with
  | nil =>
    intro _
    simp [setKey, flattenKvs, hv, hk]
  | cons kv0 rest ih =>
    cases kv0 with
    | mk k1 v1 =>
      intro hold
      by_cases h : k1 = k
      · subst h
        simp only [setKey, if_pos rfl]
        simp only [flattenKvs]
        rw [if_neg (by simp [hk]), if_neg (by simp [hk])]
        rw [hv, hold (k1, v1) (List.mem_cons_self _ _) rfl]
      · simp only [setKey, if_neg h]
        simp only [flattenKvs]
        congr 1
        exact ih (fun kv2 h2 hk2 => hold kv2 (List.mem_cons_of_mem _ h2) hk2)

theorem optIntToJ_isAtom (o : Option Int) : (optIntToJ o).isAtom = true := by
  cases o <;> simp [optIntToJ, JVal.isAtom]

theorem foldl_setKey_flatten (admitD : DT) (row : Row) :
    ∀ (tf : List (String × List String)) (acc : Row) (e : String),
      (∀ t ∈ tf, t.1 ≠ "eid") →
      (∀ kv ∈ acc, kv.2.isAtom = true) →
      flattenKvs acc = [e] →
      flattenKvs (tf.foldl
        (fun acc2 tfe => setKey acc2 tfe.1 (optIntToJ (firstRelMin admitD row tfe.2))) acc) = [e] := by
  intro tf
  induction tf with
  | nil => intro acc e _ _ hacc; simpa using hacc
  | cons t ts ih =>
    intro acc e htf hat hacc
    simp only [List.foldl_cons]
    apply ih
    · exact fun t2 h2 => htf t2 (List.mem_cons_of_mem _ h2)
    · exact setKey_atoms acc t.1 _ hat (optIntToJ_isAtom _)
    · rw [flattenKvs_setKey_ne t.1 _ (htf t (List.mem_cons_self _ _)) (flatten_atom _ (optIntToJ_isAtom _))]
      · exact hacc
      · exact fun kv h2 _ => flatten_atom _ (hat kv h2)

theorem flattenKvs_attachRow (pfx : String) (admitD : DT) (tf : List (String × List String))
    (df : List String) (i : Nat) (row : Row)
    (hat : ∀ kv ∈ row, kv.2.isAtom = true) (hnd : (row.map Prod.fst).Nodup)
    (htf : ∀ t ∈ tf, t.1 ≠ "eid") :
    flattenKvs (attachRow pfx admitD tf df i row) = [eidOf pfx i] := by
  unfold attachRow
  apply foldl_setKey_flatten admitD row tf _ _ htf
  · apply setKey_atoms
    · exact fun kv h2 => hat kv (List.mem_filter.mp h2).1
    · simp [JVal.isAtom]
  · apply flattenKvs_setKey_eid
    · exact fun kv h2 => hat kv (List.mem_filter.mp h2).1
    · exact hnd.sublist ((List.filter_sublist row).map Prod.fst)

theorem flatten_rowsJ_attachGo (pfx : String) (admitD : DT) (tf : List (String × List String))
    (df : List String) (htf : ∀ t ∈ tf, t.1 ≠ "eid") :
    ∀ (rows : List Row) (i : Nat), GoodRows rows →
      flattenEidsList (rowsJ (attachGo pfx admitD tf df i rows)) =
        (List.range' i rows.length).map (eidOf pfx) := by
  intro rows
  induction rows with
  | nil => intro i _; simp [attachGo, rowsJ, flattenEidsList, flattenArr]
  | cons r rs ih =>
    intro i hg
    have hr := hg r (List.mem_cons_self _ _)
    have hrow := flattenKvs_attachRow pfx admitD tf df i r hr.1 hr.2 htf
    have hrest := ih (i + 1) (fun r2 h2 => hg r2 (List.mem_cons_of_mem _ h2))
    simp only [attachGo, rowsJ, List.map_cons, flattenEidsList, flattenArr] at hrest ⊢
    rw [hrow, hrest, List.length_cons, List.range'_succ, List.map_cons]
    rfl

theorem flatten_rowsJ_attachRows (pfx : String) (admitD : DT) (tf : List (String × List String))
    (df : List String) (rows : List Row) (htf : ∀ t ∈ tf, t.1 ≠ "eid")
    (hg : GoodRows rows) :
    flattenEidsList (rowsJ (attachRows pfx admitD tf df rows)) =
      (List.range' 1 rows.length).map (eidOf pfx) :=
  flatten_rowsJ_attachGo pfx admitD tf df htf rows 1 hg

theorem GoodRow_normalizeRow (r : Row) (h : GoodRow r) : GoodRow (normalizeRow r) := by
  constructor
  · intro kv hm
    simp only [normalizeRow, List.mem_map] at hm
    obtain ⟨kv0, hkv0, rfl⟩ := hm
    have := h.1 kv0 hkv0
    cases hv : kv0.2 <;> simp_all [normVal, JVal.isAtom]
  · have : (normalizeRow r).map Prod.fst = r.map Prod.fst := by
      simp [normalizeRow, List.map_map]
    rw [this]
    exact h.2

theorem GoodRows_of_subset {l₁ l₂ : List Row} (h : GoodRows l₂) (hs : l₁ ⊆ l₂) :
    GoodRows l₁ :=
  fun r hr => h r (hs hr)

theorem GoodRows_map_normalize (rs : List Row) (h : GoodRows rs) :
    GoodRows (rs.map normalizeRow) := by
  intro r hr
  simp only [List.mem_map] at hr
  obtain ⟨r0, hr0, rfl⟩ := hr
  exact GoodRow_normalizeRow r0 (h r0 hr0)

theorem clipRows_subset (rows : List Row) (cap : Option Int) :
    (clipRows rows cap).1 ⊆ rows := by
  rcases cap with _ | c
  · simp [clipRows]
  · by_cases h1 : c < 0
    · simp [clipRows, h1]
    · by_cases h2 : (rows.length : Int) ≤ c
      · simp [clipRows, h1, h2]
      · simp only [clipRows, if_neg h1, if_neg h2]
        exact List.take_subset _ _

theorem secFinal_good (cfg : Cfg) (name : String) (rows : List Row) (h : GoodRows rows) :
    GoodRows (secFinal cfg name rows) :=
  GoodRows_of_subset (GoodRows_map_normalize rows h) (clipRows_subset _ _)

theorem GoodRows_append {a b : List Row} (ha : GoodRows a) (hb : GoodRows b) :
    GoodRows (a ++ b) := by
  intro r hr
  rcases List.mem_append.mp hr with h | h
  · exact ha r h
  · exact hb r h

theorem mergedLabs_good (cfg : Cfg) (st : StoreRows)
    (h1 : GoodRows st.labsStrict) (h2 : GoodRows st.labsProx) :
    GoodRows (mergedLabs cfg st) := by
  unfold mergedLabs
  by_cases h : cfg.extraction.proximal_lab_capture = true
  · rw [if_pos h]
    exact GoodRows_of_subset (GoodRows_append h1 h2) (dedupeFrom_sublist _ _ _).subset
  · simp only [Bool.not_eq_true] at h
    rw [h]
    simpa using h1

theorem mergedMicro_good (cfg : Cfg) (st : StoreRows)
    (h1 : GoodRows st.microStrict) (h2 : GoodRows st.microProx) :
    GoodRows (mergedMicro cfg st) := by
  unfold mergedMicro
  by_cases h : cfg.extraction.proximal_micro_capture = true
  · rw [if_pos h]
    exact GoodRows_of_subset (GoodRows_append h1 h2) (dedupeFrom_sublist _ _ _).subset
  · simp only [Bool.not_eq_true] at h
    rw [h]
    simpa using h1

theorem emarRows_subset (cfg : Cfg) (st : StoreRows) (hadm : Int) (admitDt : DT)
    (dischDt : Option DT) :
    emarRows cfg st hadm admitDt dischDt ⊆ st.emarCandidates := by
  unfold emarRows filterEmarCandidates
  intro r hr
  have h1 := (dedupeFrom_sublist _ _ _).subset hr
  have h2 := (stableSortBy_perm emarRowLe _).subset h1
  rw [emarLoop_fst] at h2
  exact (List.filter_sublist _).subset h2

theorem emarRows_good (cfg : Cfg) (st : StoreRows) (hadm : Int) (admitDt : DT)
    (dischDt : Option DT) (h : GoodRows st.emarCandidates) :
    GoodRows (emarRows cfg st hadm admitDt dischDt) :=
  GoodRows_of_subset h (emarRows_subset cfg st hadm admitDt dischDt)

theorem emarDetailRows_good (st : StoreRows) (emarSel : List Row)
    (h : GoodRows st.emarDetailCandidates) :
    GoodRows (emarDetailRows st emarSel) :=
  GoodRows_of_subset h (by unfold emarDetailRows; exact (List.filter_sublist _).subset)

theorem icuRows_good (cfg : Cfg) (st : StoreRows) (h : GoodRows st.icustays) :
    GoodRows (icuRows cfg st) := by
  unfold icuRows
  by_cases hc : cfg.extraction.include_icu_stays = true
  · rw [if_pos hc]; exact h
  · simp only [Bool.not_eq_true] at hc
    rw [hc]
    simp
    intro r hr
    simp at hr

theorem pad6_length (i : Nat) (h : i ≤ 999999) : (pad6 i).length = 6 := by
  have h2 : i < 1000000 := by omega
  simp only [pad6, if_pos h2, sixDigits]
  rfl

theorem digitChar_inj : ∀ a < 10, ∀ b < 10, Nat.digitChar a = Nat.digitChar b → a = b := by
  decide

theorem pad6_inj (i j : Nat) (hi : i ≤ 999999) (hj : j ≤ 999999) (h : pad6 i = pad6 j) :
    i = j := by
  have hi2 : i < 1000000 := by omega
  have hj2 : j < 1000000 := by omega
  simp only [pad6, if_pos hi2, if_pos hj2, sixDigits] at h
  injection h with hdata
  have e5 := List.head_eq_of_cons_eq hdata
  have hdata1 := List.tail_eq_of_cons_eq hdata
  have e4 := List.head_eq_of_cons_eq hdata1
  have hdata2 := List.tail_eq_of_cons_eq hdata1
  have e3 := List.head_eq_of_cons_eq hdata2
  have hdata3 := List.tail_eq_of_cons_eq hdata2
  have e2 := List.head_eq_of_cons_eq hdata3
  have hdata4 := List.tail_eq_of_cons_eq hdata3
  have e1 := List.head_eq_of_cons_eq hdata4
  have hdata5 := List.tail_eq_of_cons_eq hdata4
  have e0 := List.head_eq_of_cons_eq hdata5
  have d5 := digitChar_inj _ (Nat.mod_lt _ (by norm_num)) _ (Nat.mod_lt _ (by norm_num)) e5
  have d4 := digitChar_inj _ (Nat.mod_lt _ (by norm_num)) _ (Nat.mod_lt _ (by norm_num)) e4
  have d3 := digitChar_inj _ (Nat.mod_lt _ (by norm_num)) _ (Nat.mod_lt _ (by norm_num)) e3
  have d2 := digitChar_inj _ (Nat.mod_lt _ (by norm_num)) _ (Nat.mod_lt _ (by norm_num)) e2
  have d1 := digitChar_inj _ (Nat.mod_lt _ (by norm_num)) _ (Nat.mod_lt _ (by norm_num)) e1
  have d0 := digitChar_inj _ (Nat.mod_lt _ (by norm_num)) _ (Nat.mod_lt _ (by norm_num)) e0
  omega

theorem eidOf_inj (p q : String) (i j : Nat)
    (hi : (pad6 i).length = 6) (hj : (pad6 j).length = 6)
    (h : eidOf p i = eidOf q j) : p = q ∧ pad6 i = pad6 j := by
  have hdata : p.data ++ ('#' :: (pad6 i).data) = q.data ++ ('#' :: (pad6 j).data) := by
    have h2 := congrArg String.data h
    simpa [eidOf, String.data_append] using h2
  have hlen : ('#' :: (pad6 i).data).length = ('#' :: (pad6 j).data).length := by
    have hi2 : (pad6 i).data.length = 6 := hi
    have hj2 : (pad6 j).data.length = 6 := hj
    simp [hi2, hj2]
  obtain ⟨hp, hs⟩ := List.append_inj' hdata hlen
  refine ⟨?_, ?_⟩
  · cases p with
    | mk pd =>
      cases q with
      | mk qd => exact congrArg String.mk (by simpa using hp)
  · have hs2 := List.tail_eq_of_cons_eq hs
    cases hpi : pad6 i with
    | mk pid =>
      cases hpj : pad6 j with
      | mk pjd =>
        rw [hpi, hpj] at hs2
        exact congrArg String.mk (by simpa using hs2)

theorem eids_block_nodup (p : String) (n : Nat) (hn : n ≤ 999999) :
    ((List.range' 1 n).map (eidOf p)).Nodup := by
  apply List.Nodup.map_on ?_ (List.nodup_range' 1 n 1 (by norm_num))
  intro i hi j hj heq
  rw [List.mem_range'_1] at hi hj
  have hi6 : i ≤ 999999 := by omega
  have hj6 : j ≤ 999999 := by omega
  exact pad6_inj i j hi6 hj6
    (eidOf_inj p p i j (pad6_length i hi6) (pad6_length j hj6) heq).2

theorem eids_flatMap_nodup : ∀ (ps : List (String × Nat)),
    (ps.map Prod.fst).Nodup → (∀ pr ∈ ps, pr.2 ≤ 999999) →
    (ps.flatMap (fun pr => (List.range' 1 pr.2).map (eidOf pr.1))).Nodup := by
  intro ps
  induction ps with
  | nil => intro _ _; simp
  | cons pr rest ih =>
    intro hnd hb
    rw [List.flatMap_cons]
    apply List.Nodup.append
    · exact eids_block_nodup pr.1 pr.2 (hb pr (List.mem_cons_self _ _))
    · exact ih (List.nodup_cons.mp hnd).2 (fun qr hq => hb qr (List.mem_cons_of_mem _ hq))
    · intro e he1 he2
      obtain ⟨i, hi, rfl⟩ := List.mem_map.mp he1
      obtain ⟨qr, hqr, he3⟩ := List.mem_flatMap.mp he2
      obtain ⟨j, hj, hej⟩ := List.mem_map.mp he3
      rw [List.mem_range'_1] at hi hj
      have hib : i ≤ 999999 := by
        have := hb pr (List.mem_cons_self _ _); omega
      have hjb : j ≤ 999999 := by
        have := hb qr (List.mem_cons_of_mem _ hqr); omega
      have := (eidOf_inj qr.1 pr.1 j i (pad6_length j hjb) (pad6_length i hib) hej).1
      have hmem : pr.1 ∈ rest.map Prod.fst := by
        rw [← this]
        exact List.mem_map_of_mem Prod.fst hqr
      exact (List.nodup_cons.mp hnd).1 hmem

theorem flattenE_null : flattenEidsList .null = [] := by simp [flattenEidsList]

theorem flattenE_bool (b : Bool) : flattenEidsList (.bool b) = [] := by simp [flattenEidsList]

theorem flattenE_int (n : Int) : flattenEidsList (.int n) = [] := by simp [flattenEidsList]

theorem flattenE_str (s : String) : flattenEidsList (.str s) = [] := by simp [flattenEidsList]

theorem flattenE_time (t : DT) : flattenEidsList (.time t) = [] := by simp [flattenEidsList]

theorem flattenE_obj (kvs : List (String × JVal)) :
    flattenEidsList (.obj kvs) = flattenKvs kvs := by simp [flattenEidsList]

theorem flattenE_arr (xs : List JVal) :
    flattenEidsList (.arr xs) = flattenArr xs := by simp [flattenEidsList]

theorem flattenKvs_nil : flattenKvs [] = [] := by simp [flattenKvs]

theorem flattenKvs_cons (k : String) (v : JVal) (kvs : List (String × JVal)) :
    flattenKvs ((k, v) :: kvs) =
      (if k = "eid" ∧ v.isStr = true then [v.strVal] else flattenEidsList v) ++ flattenKvs kvs := by
  simp [flattenKvs]

theorem flattenArr_nil : flattenArr [] = [] := by simp [flattenArr]

theorem flattenArr_cons (x : JVal) (xs : List JVal) :
    flattenArr (x :: xs) = flattenEidsList x ++ flattenArr xs := by simp [flattenArr]

theorem flatten_buildPacket (hashHex : String → String) (cfg : Cfg) (st : StoreRows)
    (subj hadm : Int) (ap : Row) (admitDt : DT)
    (hap : GoodRow ap) (hg : GoodStore st) :
    flattenEidsList (buildPacket hashHex cfg st subj hadm ap admitDt) =
      (packetSectionLens cfg st hadm ap admitDt).flatMap
        (fun pr => (List.range' 1 pr.2).map (eidOf pr.1)) := by
  obtain ⟨hgp, hgt, hgs, hgls, hglp, hgms, hgmp, hgpoe, hgpd, hgrx, hgph, hgec, hged,
    hgdx, hgpx, hgdrg, hgds, hgdd, hgrad, hgradd, hgicu⟩ := hg
  have f1 := flatten_rowsJ_attachRows "XFER" admitDt [("t_rel_min", ["intime"])] ["subject_id", "hadm_id"] (secFinal cfg "transfers" st.transfers) (by decide) (secFinal_good cfg "transfers" _ hgt)
  have f2 := flatten_rowsJ_attachRows "SVC" admitDt [("t_rel_min", ["transfertime"])] ["subject_id", "hadm_id"] (secFinal cfg "services" st.services) (by decide) (secFinal_good cfg "services" _ hgs)
  have f3 := flatten_rowsJ_attachRows "DS" admitDt [("t_rel_min", ["charttime"])] ["subject_id", "hadm_id"] (secFinal cfg "discharge" st.discharge) (by decide) (secFinal_good cfg "discharge" _ hgds)
  have f4 := flatten_rowsJ_attachRows "DSD" admitDt [] ["subject_id"] (secFinal cfg "discharge_detail" st.dischargeDetail) (by decide) (secFinal_good cfg "discharge_detail" _ hgdd)
  have f5 := flatten_rowsJ_attachRows "RAD" admitDt [("t_rel_min", ["charttime"])] ["subject_id", "hadm_id"] (secFinal cfg "radiology" st.radiology) (by decide) (secFinal_good cfg "radiology" _ hgrad)
  have f6 := flatten_rowsJ_attachRows "RADD" admitDt [] ["subject_id"] (secFinal cfg "radiology_detail" st.radiologyDetail) (by decide) (secFinal_good cfg "radiology_detail" _ hgradd)
  have f7 := flatten_rowsJ_attachRows "LAB" admitDt [("t_rel_min", ["charttime", "storetime"])] ["subject_id", "hadm_id"] (secFinal cfg "labs" (mergedLabs cfg st)) (by decide) (secFinal_good cfg "labs" _ (mergedLabs_good cfg st hgls hglp))
  have f8 := flatten_rowsJ_attachRows "MICRO" admitDt [("t_rel_min", ["charttime", "chartdate", "storetime", "storedate"])] ["subject_id", "hadm_id"] (secFinal cfg "microbiology" (mergedMicro cfg st)) (by decide) (secFinal_good cfg "microbiology" _ (mergedMicro_good cfg st hgms hgmp))
  have f9 := flatten_rowsJ_attachRows "POE" admitDt [("t_rel_min", ["ordertime"])] ["subject_id", "hadm_id"] (secFinal cfg "poe" st.poe) (by decide) (secFinal_good cfg "poe" _ hgpoe)
  have f10 := flatten_rowsJ_attachRows "POED" admitDt [] ["subject_id"] (secFinal cfg "poe_detail" st.poeDetail) (by decide) (secFinal_good cfg "poe_detail" _ hgpd)
  have f11 := flatten_rowsJ_attachRows "RX" admitDt [("t_rel_min", ["starttime", "stoptime"])] ["subject_id", "hadm_id"] (secFinal cfg "prescriptions" st.prescriptions) (by decide) (secFinal_good cfg "prescriptions" _ hgrx)
  have f12 := flatten_rowsJ_attachRows "PHARM" admitDt [("t_rel_min", ["entertime", "starttime"])] ["subject_id", "hadm_id"] (secFinal cfg "pharmacy" st.pharmacy) (by decide) (secFinal_good cfg "pharmacy" _ hgph)
  have f13 := flatten_rowsJ_attachRows "EMAR" admitDt [("t_rel_min", ["charttime", "scheduletime", "storetime"])] ["subject_id", "hadm_id"] (secFinal cfg "emar" (emarRows cfg st hadm admitDt (parseDt (rowGet ap "dischtime")))) (by decide) (secFinal_good cfg "emar" _ (emarRows_good cfg st hadm admitDt _ hgec))
  have f14 := flatten_rowsJ_attachRows "EMD" admitDt [] ["subject_id"] (secFinal cfg "emar_detail" (emarDetailRows st (emarRows cfg st hadm admitDt (parseDt (rowGet ap "dischtime"))))) (by decide) (secFinal_good cfg "emar_detail" _ (emarDetailRows_good st _ hged))
  have f15 := flatten_rowsJ_attachRows "DX" admitDt [] ["subject_id", "hadm_id"] (secFinal cfg "diagnoses_icd" st.diagnosesIcd) (by decide) (secFinal_good cfg "diagnoses_icd" _ hgdx)
  have f16 := flatten_rowsJ_attachRows "PX" admitDt [("t_rel_min", ["chartdate"])] ["subject_id", "hadm_id"] (secFinal cfg "procedures_icd" st.proceduresIcd) (by decide) (secFinal_good cfg "procedures_icd" _ hgpx)
  have f17 := flatten_rowsJ_attachRows "DRG" admitDt [] ["subject_id", "hadm_id"] (secFinal cfg "drgcodes" st.drgcodes) (by decide) (secFinal_good cfg "drgcodes" _ hgdrg)
  have f18 := flatten_rowsJ_attachRows "ICU" admitDt [("t_in_min", ["intime"]), ("t_out_min", ["outtime"])] ["subject_id", "hadm_id"] (secFinal cfg "icustays" (icuRows cfg st)) (by decide) (secFinal_good cfg "icustays" _ (icuRows_good cfg st hgicu))
  have hapflat : ∀ k, flattenEidsList (rowGet ap k) = []  :=
    fun k => flatten_atom _ (rowGet_isAtom ap hap.1 k)
  have hpt : eidOf "PT" 1 = "PT#000001" := by decide
  have hadm1 : eidOf "ADM" 1 = "ADM#000001" := by decide
  have hr1 : List.range' 1 1 = [1] := rfl
  unfold buildPacket buildPre packetSectionLens
  simp only [setStatsHash, setKeyJ, setKey, List.map_cons, List.map_nil]
  simp [flattenE_null, flattenE_bool, flattenE_int, flattenE_str, flattenE_time,
    flattenE_obj, flattenE_arr, flattenKvs_nil, flattenKvs_cons,
    f1, f2, f3, f4, f5, f6, f7, f8, f9, f10, f11, f12, f13, f14, f15, f16, f17, f18,
    flatten_dtToIsoJ, hapflat, JVal.isStr, JVal.strVal, hr1, hpt, hadm1,
    List.flatMap_cons, List.flatMap_nil]

/-- C1: in every successfully extracted packet built from well-formed
store rows whose post-truncation sections hold at most 999999 rows (the
regime of the six-digit format), the deep-traversal EID occurrence list
is exactly one block per section in packet order — `PT` and `ADM` as
singleton blocks, then each section prefix with positions 1 … n assigned
sequentially after truncation — hence it has no duplicates, every prefix
block is contiguous from 000001, every EID has the form
`<PREFIX>#<6-digit-sequence>`, and the packet contains exactly the two
singleton EIDs `PT#000001` and `ADM#000001`. -/
theorem c1_eid_uniqueness_and_form (hashHex : String → String) (cfg : Cfg) (st : StoreRows)
    (subj hadm : Int) (pkt : JVal)
    (hok : extractAdmissionPacket hashHex cfg st subj hadm = .ok pkt)
    (hg : GoodStore st)
    (hlens : ∀ pr ∈ packetSectionLensOf cfg st hadm, pr.2 ≤ 999999) :
    flattenEidsList pkt =
      (packetSectionLensOf cfg st hadm).flatMap
        (fun pr => (List.range' 1 pr.2).map (eidOf pr.1)) ∧
    (flattenEidsList pkt).Nodup ∧
    (∃ tail, flattenEidsList pkt = "PT#000001" :: "ADM#000001" :: tail) ∧
    (∀ e ∈ flattenEidsList pkt, ∃ pr ∈ packetSectionLensOf cfg st hadm, ∃ i,
      1 ≤ i ∧ i ≤ pr.2 ∧ e = pr.1 ++ "#" ++ pad6 i ∧ (pad6 i).length = 6) := by
  rcases hap : st.admPatient with _ | apRaw
  · simp [extractAdmissionPacket, hap] at hok
  · rcases hdt : parseDt (rowGet (normalizeRow apRaw) "admittime") with _ | admitDt
    · simp [extractAdmissionPacket, hap, hdt] at hok
    · by_cases hds : cfg.extraction.require_discharge_note ∧ st.discharge = []
      · simp [extractAdmissionPacket, hap, hdt, hds] at hok
      · simp only [extractAdmissionPacket, hap, hdt] at hok
        rw [if_neg hds] at hok
        have hpkt : buildPacket hashHex cfg st subj hadm (normalizeRow apRaw) admitDt = pkt := by
          simpa using hok
        have hlof : packetSectionLensOf cfg st hadm =
            packetSectionLens cfg st hadm (normalizeRow apRaw) admitDt := by
          simp [packetSectionLensOf, hap, hdt]
        have hapGood : GoodRow (normalizeRow apRaw) :=
          GoodRow_normalizeRow apRaw (hg.1 apRaw hap)
        have heq : flattenEidsList pkt =
            (packetSectionLensOf cfg st hadm).flatMap
              (fun pr => (List.range' 1 pr.2).map (eidOf pr.1)) := by
          rw [← hpkt, hlof]
          exact flatten_buildPacket hashHex cfg st subj hadm (normalizeRow apRaw) admitDt hapGood hg
        have hfsts : (packetSectionLensOf cfg st hadm).map Prod.fst =
            ["PT", "ADM", "XFER", "SVC", "DS", "DSD", "RAD", "RADD", "LAB", "MICRO",
             "POE", "POED", "RX", "PHARM", "EMAR", "EMD", "DX", "PX", "DRG", "ICU"] := by
          rw [hlof]
          simp [packetSectionLens]
        refine ⟨heq, ?_, ?_, ?_⟩
        · rw [heq]
          apply eids_flatMap_nodup
          · rw [hfsts]
            decide
          · exact hlens
        · obtain ⟨rest, hrest⟩ : ∃ rest, packetSectionLensOf cfg st hadm =
              ("PT", 1) :: ("ADM", 1) :: rest := by
            rw [hlof]
            exact ⟨_, rfl⟩
          refine ⟨(rest.flatMap (fun pr => (List.range' 1 pr.2).map (eidOf pr.1))), ?_⟩
          rw [heq, hrest]
          have hpt : eidOf "PT" 1 = "PT#000001" := by decide
          have hadm1 : eidOf "ADM" 1 = "ADM#000001" := by decide
          simp [List.flatMap_cons, hpt, hadm1, List.range']
        · intro e he
          rw [heq] at he
          obtain ⟨pr, hpr, he2⟩ := List.mem_flatMap.mp he
          obtain ⟨i, hi, rfl⟩ := List.mem_map.mp he2
          rw [List.mem_range'_1] at hi
          have hib : i ≤ pr.2 := by omega
          have hib2 : i ≤ 999999 := le_trans hib (hlens pr hpr)
          exact ⟨pr, hpr, i, hi.1, hib, rfl, pad6_length i hib2⟩

/-- Witness for C1 at the concrete fixture: the section-length bounds and
store well-formedness hold, and the extracted packet's EID list has no
duplicates and starts with the two singleton EIDs. -/
theorem c1_eid_uniqueness_and_form_witness :
    ∃ pkt, extractAdmissionPacket (fun _ => "HASH") cexCfg cexSt 1 100 = .ok pkt ∧
      (flattenEidsList pkt).Nodup ∧
      (∃ tail, flattenEidsList pkt = "PT#000001" :: "ADM#000001" :: tail) := by
  refine ⟨_, rfl, ?_, ?_⟩
  · exact (c1_eid_uniqueness_and_form (fun _ => "HASH") cexCfg cexSt 1 100 _ rfl
      (by decide) (by decide)).2.1
  · exact (c1_eid_uniqueness_and_form (fun _ => "HASH") cexCfg cexSt 1 100 _ rfl
      (by decide) (by decide)).2.2.1

/-! ### C7: schema validation -/

theorem checkTurn_ok_iff (e : Int) (t : JVal) :
    checkTurn e t = .ok () ↔ wfTurn e t = true := by
  cases t with
  | obj kvs =>
    simp only [checkTurn, wfTurn]
    split_ifs with h1 h2 h3 h4 h5 h6 h7 <;> simp_all
  | null => simp [checkTurn, wfTurn]
  | bool b => simp [checkTurn, wfTurn]
  | int n => simp [checkTurn, wfTurn]
  | str s => simp [checkTurn, wfTurn]
  | time t => simp [checkTurn, wfTurn]
  | arr xs => simp [checkTurn, wfTurn]

theorem all_enumFrom (f : Nat → JVal → Bool) : ∀ (ts : List JVal) (k : Nat),
    ((List.enumFrom k ts).all (fun p => f p.1 p.2) = true) ↔
      ∀ i (h : i < ts.length), f (k + i) (ts.get ⟨i, h⟩) = true := by
  intro ts
  induction ts with
  | nil => intro k; simp
  | cons t rest ih =>
    intro k
    rw [List.enumFrom_cons]
    simp only [List.all_cons, Bool.and_eq_true, ih (k + 1)]
    constructor
    · intro ⟨h0, hrec⟩ i hi
      cases i with
      | zero => simpa using h0
      | succ m =>
        have hm : m < rest.length := by simpa using hi
        have := hrec m hm
        have harith : k + 1 + m = k + (m + 1) := by omega
        rw [harith] at this
        simpa using this
    · intro hall
      constructor
      · simpa using hall 0 (by simp)
      · intro i hi
        have := hall (i + 1) (by simpa using Nat.succ_lt_succ hi)
        have harith : k + (i + 1) = k + 1 + i := by omega
        rw [harith] at this
        simpa using this

theorem checkTurns_ok_iff : ∀ (ts : List JVal) (e : Int),
    checkTurns e ts = .ok () ↔
      ∀ i (h : i < ts.length), wfTurn (e + (i : Int)) (ts.get ⟨i, h⟩) = true := by
  intro ts
  induction ts with
  | nil => intro e; simp [checkTurns]
  | cons t rest ih =>
    intro e
    simp only [checkTurns]
    cases hct : checkTurn e t with
    | error msg =>
      have hwf : ¬ wfTurn e t = true := by
        intro hc
        have := (checkTurn_ok_iff e t).mpr hc
        rw [hct] at this
        exact Except.noConfusion this
      constructor
      · intro hc; exact absurd hc (by simp)
      · intro hall
        have := hall 0 (by simp)
        simp at this
        exact (hwf this).elim
    | ok u =>
      cases u
      have hwf : wfTurn e t = true := (checkTurn_ok_iff e t).mp hct
      rw [ih (e + 1)]
      constructor
      · intro hall i hi
        cases i with
        | zero => simpa using hwf
        | succ m =>
          have hm : m < rest.length := by simpa using hi
          have := hall m hm
          have harith : e + 1 + (m : Int) = e + ((m : Int) + 1) := by ring
          rw [harith] at this
          simpa using this
      · intro hall i hi
        have := hall (i + 1) (by simpa using Nat.succ_lt_succ hi)
        have harith : e + ((i : Int) + 1) = e + 1 + (i : Int) := by ring
        simp only [Nat.cast_add, Nat.cast_one] at this
        rw [harith] at this
        simpa using this

theorem checkItemFields_ok_iff : ∀ kvs : List (String × JVal),
    checkItemFields kvs = .ok () ↔
      kvs.all (fun kv => if kv.1 = "supporting_eids" then isListOfStrings kv.2 else isStrV kv.2) = true := by
  intro kvs
  induction kvs with
  | nil => simp [checkItemFields]
  | cons kv rest ih =>
    cases kv with
    | mk k v =>
      simp only [checkItemFields]
      by_cases h : k = "supporting_eids"
      · subst h
        by_cases h2 : isListOfStrings v = true
        · simp [h2, ih]
        · simp [h2]
      · by_cases h2 : isStrV v = true
        · simp [h, h2, ih]
        · simp [h, h2]

theorem checkObjItems_ok_iff (req : List String) : ∀ items : List JVal,
    checkObjItems req items = .ok () ↔ items.all (wfItem req) = true := by
  intro items
  induction items with
  | nil => simp [checkObjItems]
  | cons item rest ih =>
    cases item with
    | obj kvs =>
      simp only [checkObjItems]
      by_cases h1 : pySetEq (kvs.map Prod.fst) req = true
      · rw [if_neg (by simp [h1])]
        cases hcf : checkItemFields kvs with
        | ok u =>
          cases u
          simp [wfItem, h1, (checkItemFields_ok_iff kvs).mp hcf, ih]
        | error msg =>
          have hneg : ¬ (kvs.all (fun kv =>
              if kv.1 = "supporting_eids" then isListOfStrings kv.2 else isStrV kv.2) = true) := by
            intro hc
            have := (checkItemFields_ok_iff kvs).mpr hc
            rw [hcf] at this
            exact Except.noConfusion this
          simp [wfItem, h1, hneg]
      · rw [if_pos (by simp [h1])]
        simp [wfItem, h1]
    | null => simp [checkObjItems, wfItem]
    | bool b => simp [checkObjItems, wfItem]
    | int n => simp [checkObjItems, wfItem]
    | str s => simp [checkObjItems, wfItem]
    | time t => simp [checkObjItems, wfItem]
    | arr xs => simp [checkObjItems, wfItem]

theorem checkObjList_ok_iff (req : List String) (v : JVal) :
    checkObjList req v = .ok () ↔ wfObjList req v = true := by
  cases v <;> simp [checkObjList, wfObjList, checkObjItems_ok_iff]

theorem checkTurns_iff_enumFrom : ∀ (ts : List JVal) (k : Nat),
    checkTurns ((k : Int) + 1) ts = .ok () ↔
      (List.enumFrom k ts).all (fun p => wfTurn ((p.1 : Int) + 1) p.2) = true := by
  intro ts
  induction ts with
  | nil => intro k; simp [checkTurns]
  | cons t rest ih =>
    intro k
    rw [List.enumFrom_cons]
    simp only [List.all_cons, Bool.and_eq_true]
    simp only [checkTurns]
    cases hct : checkTurn ((k : Int) + 1) t with
    | error msg =>
      have hwf : ¬ wfTurn ((k : Int) + 1) t = true := by
        intro hc
        have h := (checkTurn_ok_iff ((k : Int) + 1) t).mpr hc
        rw [hct] at h
        exact Except.noConfusion h
      constructor
      · intro hc; exact absurd hc (by simp)
      · intro hcc
        exact (hwf (by simpa using hcc.1)).elim
    | ok u =>
      cases u
      have hwf : wfTurn ((k : Int) + 1) t = true :=
        (checkTurn_ok_iff ((k : Int) + 1) t).mp hct
      have harith : (k : Int) + 1 + 1 = ((k + 1 : Nat) : Int) + 1 := by push_cast; ring
      rw [harith, ih (k + 1)]
      simp [hwf]



/-- C7: `validate_output_schema` succeeds exactly when none of the
schema violations hold — the top-level key set is exactly
`\x7bconversation, end_of_admission_summary\x7d`, the conversation is a
non-empty list of turn objects with the exact turn key set, integer
`turn_id`s sequential from 1 (so a first turn with `turn_id` 2 is
rejected), speakers from the closed role set, correctly typed
string/list-of-string fields, and summary sub-objects
(`problem_list`, `key_tests_and_results`, `treatments_and_meds`,
`disposition`) matching their required key sets exactly with correctly
typed fields; on any violation it returns a schema error. -/
theorem c7_schema_validation (data : Row) :
    validateOutputSchema data = .ok () ↔ wfResponse data = true := by
  simp only [validateOutputSchema, wfResponse]
  by_cases h1 : ((data.map Prod.fst).all
      fun k => (["conversation", "end_of_admission_summary"] : List String).contains k) = true
  · rw [if_neg (not_not.mpr h1)]
    by_cases h2 : ((["conversation", "end_of_admission_summary"] : List String).all
        fun k => (data.map Prod.fst).contains k) = true
    · rw [if_neg (not_not.mpr h2)]
      have hps : pySetEq (data.map Prod.fst) ["conversation", "end_of_admission_summary"] = true := by
        simp only [pySetEq, Bool.and_eq_true]
        exact ⟨h1, h2⟩
      cases hc : rowGet data "conversation" with
      | arr ts =>
        cases ts with
        | nil => simp
        | cons t rest =>
          simp only []
          cases hck : checkTurns 1 (t :: rest) with
          | error msg =>
            simp only []
            apply iff_of_false (by simp)
            intro hcon
            simp only [Bool.and_eq_true] at hcon
            obtain ⟨⟨hA, hB1, hB2⟩, hC⟩ := hcon
            have h := (checkTurns_iff_enumFrom (t :: rest) 0).mpr hB2
            rw [show (((0 : Nat) : Int) + 1) = (1 : Int) from by norm_num] at h
            rw [hck] at h
            exact Except.noConfusion h
          | ok u =>
            cases u
            simp only []
            have hallE : (t :: rest).enum.all (fun p => wfTurn ((p.1 : Int) + 1) p.2) = true := by
              have h0 : checkTurns (((0 : Nat) : Int) + 1) (t :: rest) = .ok () := by
                norm_num
                exact hck
              exact (checkTurns_iff_enumFrom (t :: rest) 0).mp h0
            cases hs : rowGet data "end_of_admission_summary" with
            | obj skvs =>
              simp only []
              by_cases hk : pySetEq (skvs.map Prod.fst) summaryKeys = true
              · rw [if_neg (not_not.mpr hk)]
                by_cases hr : isStrV (rowGet skvs "relative_discharge_time") = true
                · rw [if_neg (not_not.mpr hr)]
                  by_cases ho : isStrV (rowGet skvs "one_paragraph_summary") = true
                  · rw [if_neg (not_not.mpr ho)]
                    cases hp : checkObjList ["problem", "status_at_discharge", "supporting_eids"]
                        (rowGet skvs "problem_list") with
                    | error msg =>
                      simp only []
                      apply iff_of_false (by simp)
                      intro hcon
                      simp only [Bool.and_eq_true] at hcon
                      obtain ⟨⟨hA, hB⟩, ⟨⟨⟨⟨⟨⟨hK, hR⟩, hO⟩, hP⟩, hT⟩, hM⟩, hD⟩⟩ := hcon
                      have h := (checkObjList_ok_iff _ _).mpr hP
                      rw [hp] at h
                      exact Except.noConfusion h
                    | ok u =>
                      cases u
                      simp only []
                      have hwp : wfObjList ["problem", "status_at_discharge", "supporting_eids"]
                          (rowGet skvs "problem_list") = true := (checkObjList_ok_iff _ _).mp hp
                      cases hkt : checkObjList ["test", "result", "relative_time", "supporting_eids"]
                          (rowGet skvs "key_tests_and_results") with
                      | error msg =>
                        simp only []
                        apply iff_of_false (by simp)
                        intro hcon
                        simp only [Bool.and_eq_true] at hcon
                        obtain ⟨⟨hA, hB⟩, ⟨⟨⟨⟨⟨⟨hK, hR⟩, hO⟩, hP⟩, hT⟩, hM⟩, hD⟩⟩ := hcon
                        have h := (checkObjList_ok_iff _ _).mpr hT
                        rw [hkt] at h
                        exact Except.noConfusion h
                      | ok u =>
                        cases u
                        simp only []
                        have hwk : wfObjList ["test", "result", "relative_time", "supporting_eids"]
                            (rowGet skvs "key_tests_and_results") = true :=
                          (checkObjList_ok_iff _ _).mp hkt
                        cases htm : checkObjList ["treatment_or_med", "details", "supporting_eids"]
                            (rowGet skvs "treatments_and_meds") with
                        | error msg =>
                          simp only []
                          apply iff_of_false (by simp)
                          intro hcon
                          simp only [Bool.and_eq_true] at hcon
                          obtain ⟨⟨hA, hB⟩, ⟨⟨⟨⟨⟨⟨hK, hR⟩, hO⟩, hP⟩, hT⟩, hM⟩, hD⟩⟩ := hcon
                          have h := (checkObjList_ok_iff _ _).mpr hM
                          rw [htm] at h
                          exact Except.noConfusion h
                        | ok u =>
                          cases u
                          simp only []
                          have hwt : wfObjList ["treatment_or_med", "details", "supporting_eids"]
                              (rowGet skvs "treatments_and_meds") = true :=
                            (checkObjList_ok_iff _ _).mp htm
                          cases hd : rowGet skvs "disposition" with
                          | obj dkvs =>
                            simp only []
                            by_cases hd1 : pySetEq (dkvs.map Prod.fst)
                                ["discharge_location", "supporting_eids"] = true
                            · rw [if_neg (not_not.mpr hd1)]
                              by_cases hd2 : isStrV (rowGet dkvs "discharge_location") = true
                              · rw [if_neg (not_not.mpr hd2)]
                                by_cases hd3 : isListOfStrings (rowGet dkvs "supporting_eids") = true
                                · rw [if_neg (not_not.mpr hd3)]
                                  apply iff_of_true rfl
                                  rw [hps, hallE, hk, hr, ho, hwp, hwk, hwt, hd1, hd2, hd3]
                                  simp
                                · rw [if_pos hd3]
                                  apply iff_of_false (by simp)
                                  intro hcon
                                  simp only [Bool.and_eq_true] at hcon
                                  obtain ⟨⟨hA, hB⟩, ⟨⟨⟨⟨⟨⟨hK, hR⟩, hO⟩, hP⟩, hT⟩, hM⟩,
                                    ⟨⟨hD1, hD2⟩, hD3⟩⟩⟩ := hcon
                                  exact hd3 hD3
                              · rw [if_pos hd2]
                                apply iff_of_false (by simp)
                                intro hcon
                                simp only [Bool.and_eq_true] at hcon
                                obtain ⟨⟨hA, hB⟩, ⟨⟨⟨⟨⟨⟨hK, hR⟩, hO⟩, hP⟩, hT⟩, hM⟩,
                                  ⟨⟨hD1, hD2⟩, hD3⟩⟩⟩ := hcon
                                exact hd2 hD2
                            · rw [if_pos hd1]
                              apply iff_of_false (by simp)
                              intro hcon
                              simp only [Bool.and_eq_true] at hcon
                              obtain ⟨⟨hA, hB⟩, ⟨⟨⟨⟨⟨⟨hK, hR⟩, hO⟩, hP⟩, hT⟩, hM⟩,
                                ⟨⟨hD1, hD2⟩, hD3⟩⟩⟩ := hcon
                              exact hd1 hD1
                          | null => simp
                          | bool b => simp
                          | int n => simp
                          | str s => simp
                          | time tt => simp
                          | arr xs => simp
                  · rw [if_pos ho]
                    apply iff_of_false (by simp)
                    intro hcon
                    simp only [Bool.and_eq_true] at hcon
                    obtain ⟨⟨hA, hB⟩, ⟨⟨⟨⟨⟨⟨hK, hR⟩, hO⟩, hP⟩, hT⟩, hM⟩, hD⟩⟩ := hcon
                    exact ho hO
                · rw [if_pos hr]
                  apply iff_of_false (by simp)
                  intro hcon
                  simp only [Bool.and_eq_true] at hcon
                  obtain ⟨⟨hA, hB⟩, ⟨⟨⟨⟨⟨⟨hK, hR⟩, hO⟩, hP⟩, hT⟩, hM⟩, hD⟩⟩ := hcon
                  exact hr hR
              · rw [if_pos hk]
                apply iff_of_false (by simp)
                intro hcon
                simp only [Bool.and_eq_true] at hcon
                obtain ⟨⟨hA, hB⟩, ⟨⟨⟨⟨⟨⟨hK, hR⟩, hO⟩, hP⟩, hT⟩, hM⟩, hD⟩⟩ := hcon
                exact hk hK
            | null => simp
            | bool b => simp
            | int n => simp
            | str s => simp
            | time tt => simp
            | arr xs => simp
      | null => simp
      | bool b => simp
      | int n => simp
      | str s => simp
      | time tt => simp
      | obj kvs => simp
    · rw [if_pos h2]
      apply iff_of_false (by simp)
      intro hcon
      simp only [Bool.and_eq_true] at hcon
      obtain ⟨⟨hA, hB⟩, hC⟩ := hcon
      simp only [pySetEq, Bool.and_eq_true] at hA
      exact h2 hA.2
  · rw [if_pos h1]
    apply iff_of_false (by simp)
    intro hcon
    simp only [Bool.and_eq_true] at hcon
    obtain ⟨⟨hA, hB⟩, hC⟩ := hcon
    simp only [pySetEq, Bool.and_eq_true] at hA
    exact h1 hA.1

theorem eidIssues_nil_iff (site : String) (v : JVal) (valid : List String) :
    eidIssues site v valid = [] ↔ (tokensOf v).all (tokenKnown valid) = true := by
  cases v with
  | arr xs =>
    simp only [eidIssues, tokensOf, List.filterMap_eq_nil_iff, List.all_eq_true]
    constructor
    · intro h x hx
      have hh := h x hx
      cases x with
      | str e =>
        simp only [] at hh
        simp only [tokenKnown]
        by_cases hc : valid.contains e = true
        · exact hc
        · rw [if_neg hc] at hh
          exact Option.noConfusion hh
      | null => exact absurd hh (by simp)
      | bool b => exact absurd hh (by simp)
      | int n => exact absurd hh (by simp)
      | time t => exact absurd hh (by simp)
      | arr ys => exact absurd hh (by simp)
      | obj kvs => exact absurd hh (by simp)
    · intro h x hx
      have hh := h x hx
      cases x with
      | str e =>
        simp only [tokenKnown] at hh
        simp only []
        rw [if_pos hh]
      | null => simp [tokenKnown] at hh
      | bool b => simp [tokenKnown] at hh
      | int n => simp [tokenKnown] at hh
      | time t => simp [tokenKnown] at hh
      | arr ys => simp [tokenKnown] at hh
      | obj kvs => simp [tokenKnown] at hh
  | null => simp [eidIssues, tokensOf]
  | bool b => simp [eidIssues, tokensOf]
  | int n => simp [eidIssues, tokensOf]
  | str s => simp [eidIssues, tokensOf]
  | time t => simp [eidIssues, tokensOf]
  | obj kvs => simp [eidIssues, tokensOf]

theorem sectionIssues_nil_iff (valid : List String) (site : Nat → String) (key : String) :
    ∀ (ts : List JVal) (k : Nat),
      ((List.enumFrom k ts).flatMap
          (fun p => eidIssues (site p.1) (objGet p.2 key) valid) = []) ↔
        (ts.flatMap (fun t => tokensOf (objGet t key))).all (tokenKnown valid) = true := by
  intro ts
  induction ts with
  | nil => intro k; simp
  | cons t rest ih =>
    intro k
    rw [List.enumFrom_cons]
    simp only [List.flatMap_cons, List.append_eq_nil, List.all_append, Bool.and_eq_true]
    constructor
    · intro hcc
      exact ⟨(eidIssues_nil_iff (site k) (objGet t key) valid).mp (by simpa using hcc.1),
        (ih (k + 1)).mp hcc.2⟩
    · intro hcc
      exact ⟨by simpa using (eidIssues_nil_iff (site k) (objGet t key) valid).mpr hcc.1,
        (ih (k + 1)).mpr hcc.2⟩

theorem collectIssues_nil_iff (d pkt : JVal) :
    collectIssues d pkt = [] ↔ wfCitations d (flattenEidsList pkt) = true := by
  unfold collectIssues wfCitations citedTokens
  simp only [List.append_eq_nil, List.all_append, Bool.and_eq_true]
  refine and_congr (and_congr (and_congr (and_congr ?_ ?_) ?_) ?_) ?_
  · cases hq : objGet d "conversation" with
    | arr ts =>
      exact sectionIssues_nil_iff (flattenEidsList pkt)
        (fun n => "conversation[" ++ Nat.repr (n + 1) ++ "]") "evidence_eids" ts 0
    | null => simp [sectionTokens]
    | bool b => simp [sectionTokens]
    | int n => simp [sectionTokens]
    | str s => simp [sectionTokens]
    | time t => simp [sectionTokens]
    | obj kvs => simp [sectionTokens]
  · cases hq : objGet (objGet d "end_of_admission_summary") "problem_list" with
    | arr ts =>
      exact sectionIssues_nil_iff (flattenEidsList pkt)
        (fun n => "problem_list" ++ "[" ++ Nat.repr (n + 1) ++ "]") "supporting_eids" ts 0
    | null => simp [sectionTokens]
    | bool b => simp [sectionTokens]
    | int n => simp [sectionTokens]
    | str s => simp [sectionTokens]
    | time t => simp [sectionTokens]
    | obj kvs => simp [sectionTokens]
  · cases hq : objGet (objGet d "end_of_admission_summary") "key_tests_and_results" with
    | arr ts =>
      exact sectionIssues_nil_iff (flattenEidsList pkt)
        (fun n => "key_tests_and_results" ++ "[" ++ Nat.repr (n + 1) ++ "]") "supporting_eids" ts 0
    | null => simp [sectionTokens]
    | bool b => simp [sectionTokens]
    | int n => simp [sectionTokens]
    | str s => simp [sectionTokens]
    | time t => simp [sectionTokens]
    | obj kvs => simp [sectionTokens]
  · cases hq : objGet (objGet d "end_of_admission_summary") "treatments_and_meds" with
    | arr ts =>
      exact sectionIssues_nil_iff (flattenEidsList pkt)
        (fun n => "treatments_and_meds" ++ "[" ++ Nat.repr (n + 1) ++ "]") "supporting_eids" ts 0
    | null => simp [sectionTokens]
    | bool b => simp [sectionTokens]
    | int n => simp [sectionTokens]
    | str s => simp [sectionTokens]
    | time t => simp [sectionTokens]
    | obj kvs => simp [sectionTokens]
  · exact eidIssues_nil_iff "disposition"
      (objGet (objGet (objGet d "end_of_admission_summary") "disposition") "supporting_eids")
      (flattenEidsList pkt)

/-- C8: `enforce_evidence_references` first rewrites, case-insensitively,
the alias tokens `patient`/`pt` to the packet's patient EID and
`admission`/`adm` to the packet's admission EID across every
evidence-citation list, then checks every cited EID at every citation
site against the set of EIDs present anywhere in the packet; with
`strict` it errors (joining every offending site's issue) exactly when
some cited token is not a known packet EID, and without `strict` it
returns the issue list without raising.  (The witness instantiates the
spec's example: a citation `"Pt"` is rewritten to `PT#000001` and does
not raise.) -/
theorem c8_evidence_enforcement (d pkt : JVal) (strict : Bool) (pe ae : String)
    (hpe : objGet (objGet pkt "patient") "eid" = JVal.str pe)
    (hae : objGet (objGet pkt "admission") "eid" = JVal.str ae) :
    buildAliasMap pkt = [("patient", pe), ("pt", pe), ("admission", ae), ("adm", ae)] ∧
    (∀ s : String,
      normTok (buildAliasMap pkt) (JVal.str s) =
        JVal.str (if pyStripLower s = "patient" ∨ pyStripLower s = "pt" then pe
          else if pyStripLower s = "admission" ∨ pyStripLower s = "adm" then ae else s)) ∧
    (enforceEvidenceReferences d pkt strict).1 = normalizeAliases d (buildAliasMap pkt) ∧
    (enforceEvidenceReferences d pkt false).2 =
      .ok (collectIssues (normalizeAliases d (buildAliasMap pkt)) pkt) ∧
    ((enforceEvidenceReferences d pkt true).2 =
        .ok (collectIssues (normalizeAliases d (buildAliasMap pkt)) pkt) ↔
      wfCitations (normalizeAliases d (buildAliasMap pkt)) (flattenEidsList pkt) = true) ∧
    ((enforceEvidenceReferences d pkt true).2 =
        .error (String.intercalate "; "
          (collectIssues (normalizeAliases d (buildAliasMap pkt)) pkt)) ↔
      ¬ wfCitations (normalizeAliases d (buildAliasMap pkt)) (flattenEidsList pkt) = true) := by
  have hmap : buildAliasMap pkt = [("patient", pe), ("pt", pe), ("admission", ae), ("adm", ae)] := by
    simp [buildAliasMap, hpe, hae]
  refine ⟨hmap, ?_, rfl, ?_, ?_, ?_⟩
  · intro s
    rw [hmap]
    simp only [normTok, List.lookup]
    cases b1 : pyStripLower s == "patient" with
    | true =>
      have p1 : pyStripLower s = "patient" := by simpa using b1
      simp [p1]
    | false =>
      have p1 : ¬ pyStripLower s = "patient" := by simpa using b1
      cases b2 : pyStripLower s == "pt" with
      | true =>
        have p2 : pyStripLower s = "pt" := by simpa using b2
        simp [p1, p2]
      | false =>
        have p2 : ¬ pyStripLower s = "pt" := by simpa using b2
        cases b3 : pyStripLower s == "admission" with
        | true =>
          have p3 : pyStripLower s = "admission" := by simpa using b3
          simp [p1, p2, p3]
        | false =>
          have p3 : ¬ pyStripLower s = "admission" := by simpa using b3
          cases b4 : pyStripLower s == "adm" with
          | true =>
            have p4 : pyStripLower s = "adm" := by simpa using b4
            simp [p1, p2, p3, p4]
          | false =>
            have p4 : ¬ pyStripLower s = "adm" := by simpa using b4
            simp [p1, p2, p3, p4]
  · simp [enforceEvidenceReferences]
  · by_cases hi : collectIssues (normalizeAliases d (buildAliasMap pkt)) pkt = []
    · apply iff_of_true
      · simp [enforceEvidenceReferences, hi]
      · exact (collectIssues_nil_iff _ _).mp hi
    · apply iff_of_false
      · simp [enforceEvidenceReferences, hi]
      · intro hcon
        exact hi ((collectIssues_nil_iff _ _).mpr hcon)
  · by_cases hi : collectIssues (normalizeAliases d (buildAliasMap pkt)) pkt = []
    · apply iff_of_false
      · simp [enforceEvidenceReferences, hi]
      · intro hcon
        exact hcon ((collectIssues_nil_iff _ _).mp hi)
    · apply iff_of_true
      · simp [enforceEvidenceReferences, hi]
      · intro hcon
        exact hi ((collectIssues_nil_iff _ _).mpr hcon)

theorem c8_evidence_enforcement_witness :
    objGet (objGet c8Pkt "patient") "eid" = JVal.str "PT#000001" ∧
    objGet (objGet c8Pkt "admission") "eid" = JVal.str "ADM#000001" ∧
    normTok (buildAliasMap c8Pkt) (JVal.str "Pt") = JVal.str "PT#000001" ∧
    (enforceEvidenceReferences c8Resp c8Pkt true).2 =
      .ok (collectIssues (normalizeAliases c8Resp (buildAliasMap c8Pkt)) c8Pkt) := by
  have h := c8_evidence_enforcement c8Resp c8Pkt true "PT#000001" "ADM#000001" rfl rfl
  refine ⟨rfl, rfl, ?_, ?_⟩
  · rw [h.2.1 "Pt"]
    decide
  · apply h.2.2.2.2.1.mpr
    have hf : flattenEidsList c8Pkt = ["PT#000001", "ADM#000001"] := by
      simp [c8Pkt, flattenE_obj, flattenE_str, flattenKvs_cons, flattenKvs_nil,
        JVal.isStr, JVal.strVal]
    rw [hf]
    decide
